import Mathlib

/-!
Verification of the CAN multi-network management subsystem of QCAN-Explorer
(`src/canbus/network.py`, `src/canbus/multi_network_manager.py`,
`src/canbus/hardware_discovery.py`, `src/canbus/messages.py`).

The Python code is shallowly embedded: dataclasses become structures, the
`ConnectionState` / `NetworkProtocol` enums become inductives, mutating
methods become state-passing functions, Qt signal emissions become explicit
event lists, and the fallible environment (transport open, teardown steps,
hardware detection) is passed in as explicit parameters.  Timestamps are
integers supplied by the caller (Python's `time.time()`), byte payloads are
`List Nat`.
-/

namespace QCan

/-- `ConnectionState` enum of `network.py`. -/
inductive ConnectionState where
  | disconnected
  | connecting
  | connected
  | error
  | reconnecting
deriving DecidableEq, Repr

/-- `NetworkProtocol` enum of `network.py` (`CAN_2_0A`, `CAN_2_0B`, `CAN_FD`). -/
inductive NetworkProtocol where
  | can20A
  | can20B
  | canFD
deriving DecidableEq, Repr

/-- The `.value` string of each `NetworkProtocol` member. -/
def NetworkProtocol.value : NetworkProtocol → String
  | .can20A => "CAN 2.0A"
  | .can20B => "CAN 2.0B"
  | .canFD => "CAN FD"

/-- The `NetworkProtocol(...)` enum constructor: looks a member up by its
value string, `none` models the `ValueError` raised on an unknown value. -/
def NetworkProtocol.fromValue (s : String) : Option NetworkProtocol :=
  if s = "CAN 2.0A" then some .can20A
  else if s = "CAN 2.0B" then some .can20B
  else if s = "CAN FD" then some .canFD
  else none

/-- A message filter entry (`List[Dict]` in the Python dataclass); the
dictionaries are opaque to this subsystem, rendered as key/value pairs. -/
def MessageFilter := List (String × String)
deriving DecidableEq, Repr

/-- `NetworkConfiguration` dataclass of `network.py`.  `network_id` defaults
to a fresh uuid, which the embedding passes in explicitly where the Python
code generates one. -/
structure NetworkConfiguration where
  network_id : String
  name : String := "New Network"
  description : String := ""
  bus_number : Int := 1
  bitrate : Int := 500000
  sample_point : ℚ := 3/4
  protocol : NetworkProtocol := .can20B
  listen_only : Bool := false
  enable_error_frames : Bool := true
  auto_reconnect : Bool := true
  reconnect_delay : Int := 5
  message_filters : List MessageFilter := []
  symbol_file_path : String := ""
  last_hardware_interface : String := ""
deriving DecidableEq, Repr

/-- The dataclass defaults of `NetworkConfiguration`, at a given generated
uuid (`network_id`'s `default_factory`). -/
def NetworkConfiguration.defaultWith (freshId : String) : NetworkConfiguration :=
  { network_id := freshId }

/-- The plain key-value form produced by `NetworkConfiguration.to_dict` and
consumed by `from_dict`.  Each key is optional: `from_dict` reads every key
with `dict.get(key, default)`, so a missing key (`none`) falls back to the
dataclass default.  The protocol is stored as its value string, exactly as
`to_dict` writes `self.protocol.value`. -/
structure ConfigDict where
  network_id : Option String := none
  name : Option String := none
  description : Option String := none
  bus_number : Option Int := none
  bitrate : Option Int := none
  sample_point : Option ℚ := none
  protocol : Option String := none
  listen_only : Option Bool := none
  enable_error_frames : Option Bool := none
  auto_reconnect : Option Bool := none
  reconnect_delay : Option Int := none
  message_filters : Option (List MessageFilter) := none
  symbol_file_path : Option String := none
  last_hardware_interface : Option String := none
deriving DecidableEq, Repr

/-- The dictionary with every key absent. -/
def ConfigDict.empty : ConfigDict := {}

/-- `NetworkConfiguration.to_dict`: writes every field, the protocol as its
value string. -/
def NetworkConfiguration.to_dict (c : NetworkConfiguration) : ConfigDict where
  network_id := some c.network_id
  name := some c.name
  description := some c.description
  bus_number := some c.bus_number
  bitrate := some c.bitrate
  sample_point := some c.sample_point
  protocol := some c.protocol.value
  listen_only := some c.listen_only
  enable_error_frames := some c.enable_error_frames
  auto_reconnect := some c.auto_reconnect
  reconnect_delay := some c.reconnect_delay
  message_filters := some c.message_filters
  symbol_file_path := some c.symbol_file_path
  last_hardware_interface := some c.last_hardware_interface

/-- `NetworkConfiguration.from_dict`: starts from `cls()` (the defaults, with
a freshly generated `network_id` passed in as `freshId`), then overrides each
field from the dictionary via `data.get(key, default)`.
`NetworkProtocol(data.get('protocol', ...))` raises `ValueError` on an
unknown protocol string, modelled as `Except.error`. -/
def NetworkConfiguration.from_dict (data : ConfigDict) (freshId : String) :
    Except String NetworkConfiguration :=
  let base := NetworkConfiguration.defaultWith freshId
  match NetworkProtocol.fromValue (data.protocol.getD base.protocol.value) with
  | none => .error "ValueError: invalid NetworkProtocol value"
  | some p => .ok
      { network_id := data.network_id.getD base.network_id
        name := data.name.getD base.name
        description := data.description.getD base.description
        bus_number := data.bus_number.getD base.bus_number
        bitrate := data.bitrate.getD base.bitrate
        sample_point := data.sample_point.getD base.sample_point
        protocol := p
        listen_only := data.listen_only.getD base.listen_only
        enable_error_frames := data.enable_error_frames.getD base.enable_error_frames
        auto_reconnect := data.auto_reconnect.getD base.auto_reconnect
        reconnect_delay := data.reconnect_delay.getD base.reconnect_delay
        message_filters := data.message_filters.getD base.message_filters
        symbol_file_path := data.symbol_file_path.getD base.symbol_file_path
        last_hardware_interface :=
          data.last_hardware_interface.getD base.last_hardware_interface }

/-- `__post_init__` of the `HardwareInterface` dataclass: the capability tags
derived from the interface type. -/
def postInitCapabilities (t : String) : List String :=
  if t = "virtual" then ["error_injection", "simulation", "unlimited_channels"]
  else if t = "pcan" then ["hardware_filters", "timestamp_sync", "error_frames"]
  else if t = "vector" then ["hardware_filters", "precise_timing", "can_fd"]
  else if t = "kvaser" then ["hardware_filters", "silent_mode", "error_frames"]
  else if t = "socketcan" then ["native_linux", "error_frames"]
  else []

/-- `HardwareInterface` dataclass of `network.py`. -/
structure HardwareInterface where
  interface_type : String
  channel : String
  name : String
  description : String
  available : Bool := true
  capabilities : List String := []
deriving DecidableEq, Repr

/-- Constructing a `HardwareInterface(...)`, which runs `__post_init__` to
fill in the capability set. -/
def mkHardwareInterface (t channel name description : String)
    (available : Bool := true) : HardwareInterface :=
  { interface_type := t, channel, name, description, available
    capabilities := postInitCapabilities t }

/-- The `"{interface_type}:{channel}"` key under which the Manager indexes a
hardware interface. -/
def HardwareInterface.key (h : HardwareInterface) : String :=
  h.interface_type ++ ":" ++ h.channel

/-- Python's `str.lower()` as applied to interface-type strings.  (Same
function as `String.toLower`, but defined by structural recursion over the
character list so that proofs can evaluate it.) -/
def pyLower (s : String) : String := ⟨s.data.map Char.toLower⟩

/-- `CANMessage` dataclass of `messages.py`.  Note: it has exactly these
eight fields — in particular, **no** `bus_number` field. -/
structure CANMessage where
  timestamp : Int
  arbitration_id : Nat
  data : List Nat
  is_extended_id : Bool
  is_remote_frame : Bool
  is_error_frame : Bool
  channel : String
  direction : String
deriving DecidableEq, Repr

/-- The constructor call `CANMessage(timestamp=…, …, direction=…,
bus_number=…)` exactly as `network.py` performs it (in
`CANConnection.send_message` and in `CANNetworkListener.on_message_received`).
Since `messages.py`'s `CANMessage` dataclass has no `bus_number` field, the
generated `__init__` rejects the extra keyword argument: the call always
raises `TypeError`, modelled as `Except.error`. -/
def canMessageCtorWithBusNumber (_timestamp : Int) (_arbitration_id : Nat)
    (_data : List Nat) (_is_extended_id _is_remote_frame _is_error_frame : Bool)
    (_channel _direction : String) (_bus_number : Int) : Except String CANMessage :=
  .error "TypeError: __init__ got an unexpected keyword argument bus_number"

/-- The statistics dictionary `self.stats` of `CANConnection`. -/
structure ConnStats where
  message_count : Nat := 0
  tx_count : Nat := 0
  rx_count : Nat := 0
  error_count : Nat := 0
  start_time : Option Int := none
  last_message_time : Option Int := none
  connection_time : Option Int := none
deriving DecidableEq, Repr

/-- `CANConnection._reset_counters`. -/
def ConnStats.resetCounters (s : ConnStats) : ConnStats :=
  { s with message_count := 0, tx_count := 0, rx_count := 0, error_count := 0 }

/-- The Qt signals a `CANConnection` emits, recorded as events. -/
inductive ConnEvent where
  | stateChanged (networkId : String) (s : ConnectionState)
  | errorOccurred (networkId : String) (msg : String)
  | messageTransmitted (networkId : String) (m : CANMessage)
  | messageReceived (networkId : String) (m : CANMessage)
deriving DecidableEq, Repr

/-- The state carried by a `state_changed` emission, if the event is one. -/
def ConnEvent.stateCarried : ConnEvent → Option ConnectionState
  | .stateChanged _ s => some s
  | _ => none

/-- `CANConnection` of `network.py`.  `busOpen`, `notifierActive` and
`virtualActive` record whether `self.bus`, `self.notifier` and
`self.virtual_network` are non-`None`; `timerArmed`/`timerDelayMs` model the
single-shot `reconnect_timer`. -/
structure CANConnection where
  network_id : String
  config : NetworkConfiguration
  hardware : HardwareInterface
  state : ConnectionState := .disconnected
  busOpen : Bool := false
  notifierActive : Bool := false
  virtualActive : Bool := false
  timerArmed : Bool := false
  timerDelayMs : Int := 0
  stats : ConnStats := {}
deriving DecidableEq, Repr

/-- `CANConnection.__init__`. -/
def CANConnection.mkInit (network_id : String) (config : NetworkConfiguration)
    (hardware : HardwareInterface) : CANConnection :=
  { network_id, config, hardware }

/-- `CANConnection._set_state`: updates the state and emits `state_changed`
only when the new state differs from the current one. -/
def CANConnection.setState (c : CANConnection) (newState : ConnectionState) :
    CANConnection × List ConnEvent :=
  if c.state ≠ newState then
    ({ c with state := newState }, [.stateChanged c.network_id newState])
  else
    (c, [])

/-- `CANConnection.is_connected`. -/
def CANConnection.is_connected (c : CANConnection) : Bool :=
  c.state = .connected

/-- `CANConnection._connect_virtual`.  `openOk` is whether setting up the
virtual network succeeds (when the construction raises, it does so before
any handle is stored).  On failure the `except` clause emits a diagnostic
and moves to `Error` — it does **not** schedule a reconnect. -/
def CANConnection.connectVirtual (c : CANConnection) (now : Int) (openOk : Bool) :
    CANConnection × List ConnEvent × Bool :=
  if openOk then
    let st := ConnStats.resetCounters
      { c.stats with start_time := some now, connection_time := some now }
    let c1 := { c with virtualActive := true, busOpen := true, stats := st }
    let r := c1.setState .connected
    (r.1, r.2, true)
  else
    let r := c.setState .error
    (r.1, ConnEvent.errorOccurred c.network_id "Failed to connect to virtual CAN" :: r.2,
     false)

/-- `CANConnection._schedule_reconnect`: only from `Error` with
`auto_reconnect` set; moves to `Reconnecting` and arms the single-shot timer
for `reconnect_delay * 1000` milliseconds. -/
def CANConnection.scheduleReconnect (c : CANConnection) : CANConnection × List ConnEvent :=
  if c.config.auto_reconnect = true ∧ c.state = .error then
    let r := c.setState .reconnecting
    ({ r.1 with timerArmed := true, timerDelayMs := c.config.reconnect_delay * 1000 }, r.2)
  else
    (c, [])

/-- `CANConnection.connect`.  `openOk` is the outcome of the underlying
transport open (`can.interface.Bus(**bus_config)` for physical hardware,
virtual-network setup for `virtual`); `now` is `time.time()`.  Returns the
new connection, the emitted events in order, and the boolean result. -/
def CANConnection.connect (c : CANConnection) (now : Int) (openOk : Bool) :
    CANConnection × List ConnEvent × Bool :=
  if c.state = .connected ∨ c.state = .connecting then
    (c, [], true)
  else
    let r1 := c.setState .connecting
    if pyLower r1.1.hardware.interface_type = "virtual" then
      let r2 := r1.1.connectVirtual now openOk
      (r2.1, r1.2 ++ r2.2.1, r2.2.2)
    else if openOk then
      let st := ConnStats.resetCounters
        { r1.1.stats with start_time := some now, connection_time := some now }
      let c2 := { r1.1 with busOpen := true, notifierActive := true, stats := st }
      let r3 := c2.setState .connected
      (r3.1, r1.2 ++ r3.2, true)
    else
      let r2 := r1.1.setState .error
      let evts := r1.2 ++ [ConnEvent.errorOccurred c.network_id "Failed to connect"] ++ r2.2
      if r2.1.config.auto_reconnect then
        let r3 := r2.1.scheduleReconnect
        (r3.1, evts ++ r3.2, false)
      else
        (r2.1, evts, false)

/-- `CANConnection._attempt_reconnect` (the single-shot timer firing): the
timer disarms, and if still `Reconnecting` the connection retries
`connect()`, scheduling another attempt if that fails. -/
def CANConnection.attemptReconnect (c : CANConnection) (now : Int) (openOk : Bool) :
    CANConnection × List ConnEvent :=
  let c0 := { c with timerArmed := false }
  if c0.state = .reconnecting then
    let r := c0.connect now openOk
    if r.2.2 then
      (r.1, r.2.1)
    else
      let r2 := r.1.scheduleReconnect
      (r2.1, r.2.1 ++ r2.2)
  else
    (c0, [])

/-- `CANConnection.disconnect`.  The teardown steps that can raise are
modelled by the flags `virtualStopOk`, `notifierStopOk`, `busShutdownOk`
(each `false` meaning that step raises).  The whole body sits in one
`try`: a raising step lands in the `except` clause, which emits a
diagnostic and swallows the exception — the remaining teardown, including
`_set_state(DISCONNECTED)`, is skipped.  `reconnect_timer.stop()` comes
first and cannot raise. -/
def CANConnection.disconnect (c : CANConnection)
    (virtualStopOk notifierStopOk busShutdownOk : Bool) :
    CANConnection × List ConnEvent :=
  let c0 := { c with timerArmed := false }
  if c0.virtualActive ∧ virtualStopOk = false then
    (c0, [.errorOccurred c0.network_id "Error during disconnect"])
  else
    let c1 := { c0 with virtualActive := false }
    if c1.notifierActive ∧ notifierStopOk = false then
      (c1, [.errorOccurred c1.network_id "Error during disconnect"])
    else
      let c2 := { c1 with notifierActive := false }
      if c2.busOpen ∧ busShutdownOk = false then
        (c2, [.errorOccurred c2.network_id "Error during disconnect"])
      else
        let c3 := { c2 with busOpen := false }
        c3.setState .disconnected

/-- `CANConnection.send_message`.  `sendOk` is whether `self.bus.send(msg)`
succeeds.  After a successful wire send, the code builds a tracking
`CANMessage` passing `bus_number=` — see `canMessageCtorWithBusNumber`. -/
def CANConnection.send_message (c : CANConnection) (now : Int) (msg_id : Nat)
    (data : List Nat) (is_extended : Bool) (sendOk : Bool) :
    CANConnection × List ConnEvent × Bool :=
  if ¬(c.state = .connected ∧ c.busOpen = true) then
    (c, [.errorOccurred c.network_id "Not connected to CAN interface"], false)
  else if c.config.listen_only then
    (c, [.errorOccurred c.network_id "Cannot send messages in listen-only mode"], false)
  else if sendOk = false then
    ({ c with stats := { c.stats with error_count := c.stats.error_count + 1 } },
     [.errorOccurred c.network_id "Failed to send message"], false)
  else
    match canMessageCtorWithBusNumber now msg_id data is_extended false false
        c.network_id "tx" c.config.bus_number with
    | .error e =>
      ({ c with stats := { c.stats with error_count := c.stats.error_count + 1 } },
       [.errorOccurred c.network_id ("Failed to send message: " ++ e)], false)
    | .ok m =>
      ({ c with stats := { c.stats with
            tx_count := c.stats.tx_count + 1,
            message_count := c.stats.message_count + 1,
            last_message_time := some now } },
       [.messageTransmitted c.network_id m], true)

/-! ### Hardware discovery (`hardware_discovery.py`)

The per-backend enumeration depends on the environment (subprocess output,
importable vendor libraries, probe results); the environment is passed in
as explicit data.  The parsing of the `ip link` subprocess output is
abstracted to the extracted `(interface_name, state)` entries, and the
`/sys/class/net` walk to the extracted `(name, operstate)` entries — the
spec places the platform-specific enumeration mechanics out of scope. -/

/-- Link state a parsed `ip link` line reports (`UP` / `DOWN` / other). -/
inductive LinkState where
  | up
  | down
  | unknownState
deriving DecidableEq, Repr

/-- Description string for an `ip link`-scanned SocketCAN interface. -/
def linkDescription (name : String) : LinkState → String
  | .up => "SocketCAN interface " ++ name ++ " (Active)"
  | .down => "SocketCAN interface " ++ name ++ " (Down)"
  | .unknownState => "SocketCAN interface " ++ name ++ " (Unknown state)"

/-- A CAN entry found under `/sys/class/net` (type 280), with the content
of its `operstate` file when that file exists. -/
structure SysfsEntry where
  name : String
  operstate : Option String
deriving DecidableEq, Repr

/-- Availability of a sysfs-scanned interface. -/
def sysfsAvailable (e : SysfsEntry) : Bool :=
  match e.operstate with
  | some st => st = "up" ∨ st = "down" ∨ st = "unknown"
  | none => true

/-- Description string for a sysfs-scanned interface. -/
def sysfsDescription (e : SysfsEntry) : String :=
  match e.operstate with
  | some st => "SocketCAN interface " ++ e.name ++ " (State: " ++ st ++ ")"
  | none => "SocketCAN interface " ++ e.name ++ " (Hardware detected)"

/-- One step of the sysfs scan: skips an interface name already found by
the `ip link` scan (first-seen wins within this backend). -/
def addSysfs (acc : List HardwareInterface) (e : SysfsEntry) : List HardwareInterface :=
  if acc.any fun iface => iface.channel = e.name then
    acc
  else
    acc ++ [mkHardwareInterface "socketcan" e.name ("SocketCAN " ++ e.name)
      (sysfsDescription e) (sysfsAvailable e)]

/-- `HardwareDiscovery._discover_socketcan_interfaces`: the `ip link` scan
first (every entry `available=True`), then the sysfs scan skipping
already-found channel names. -/
def discoverSocketcan (ipScan : List (String × LinkState)) (sysfsScan : List SysfsEntry) :
    List HardwareInterface :=
  let fromIp := ipScan.map fun p =>
    mkHardwareInterface "socketcan" p.1 ("SocketCAN " ++ p.1) (linkDescription p.1 p.2) true
  sysfsScan.foldl addSysfs fromIp

/-- The fixed PCAN channel table of `_discover_pcan_interfaces`. -/
def pcanChannels : List (String × String) :=
  [("PCAN_USBBUS1", "PEAK USB CAN 1"), ("PCAN_USBBUS2", "PEAK USB CAN 2"),
   ("PCAN_USBBUS3", "PEAK USB CAN 3"), ("PCAN_USBBUS4", "PEAK USB CAN 4"),
   ("PCAN_USBBUS5", "PEAK USB CAN 5"), ("PCAN_USBBUS6", "PEAK USB CAN 6"),
   ("PCAN_USBBUS7", "PEAK USB CAN 7"), ("PCAN_USBBUS8", "PEAK USB CAN 8"),
   ("PCAN_PCIBUS1", "PEAK PCI CAN 1"), ("PCAN_PCIBUS2", "PEAK PCI CAN 2"),
   ("PCAN_ISABUS1", "PEAK ISA CAN 1"), ("PCAN_ISABUS2", "PEAK ISA CAN 2")]

/-- `HardwareDiscovery._discover_pcan_interfaces`: nothing without the
library; otherwise one descriptor per probe-detected channel. -/
def discoverPcan (libAvailable : Bool) (detect : String → Bool) : List HardwareInterface :=
  if libAvailable then
    pcanChannels.filterMap fun p =>
      if detect p.1 then
        some (mkHardwareInterface "pcan" p.1 p.2
          ("PEAK CAN interface " ++ p.1 ++ " (Hardware detected)") true)
      else none
  else []

/-- `HardwareDiscovery._discover_vector_interfaces`: channels 0–7 probed. -/
def discoverVector (libAvailable : Bool) (detect : Nat → Bool) : List HardwareInterface :=
  if libAvailable then
    (List.range 8).filterMap fun ch =>
      if detect ch then
        some (mkHardwareInterface "vector" (toString ch)
          ("Vector CAN " ++ toString (ch + 1))
          ("Vector CAN interface (Channel " ++ toString ch ++ ", Hardware detected)") true)
      else none
  else []

/-- `HardwareDiscovery._discover_kvaser_interfaces`: channels 0–7 probed. -/
def discoverKvaser (libAvailable : Bool) (detect : Nat → Bool) : List HardwareInterface :=
  if libAvailable then
    (List.range 8).filterMap fun ch =>
      if detect ch then
        some (mkHardwareInterface "kvaser" (toString ch)
          ("Kvaser CAN " ++ toString (ch + 1))
          ("Kvaser CAN interface (Channel " ++ toString ch ++ ", Hardware detected)") true)
      else none
  else []

/-- `HardwareDiscovery._discover_virtual_interfaces`: `virtual0`–`virtual3`,
always available. -/
def discoverVirtual : List HardwareInterface :=
  (List.range 4).map fun i =>
    mkHardwareInterface "virtual" ("virtual" ++ toString i)
      ("Virtual CAN " ++ toString i)
      ("Virtual CAN interface for testing and simulation (Channel " ++ toString i ++ ")")
      true

/-- The environment a whole discovery pass runs in: the inputs of the four
physical backends, plus for each one whether the timeout-protected call
completed (an exception or timeout makes that backend contribute nothing). -/
structure DiscoveryEnv where
  ipScan : List (String × LinkState)
  sysfsScan : List SysfsEntry
  pcanLib : Bool
  pcanDetect : String → Bool
  vectorLib : Bool
  vectorDetect : Nat → Bool
  kvaserLib : Bool
  kvaserDetect : Nat → Bool
  socketcanOk : Bool
  pcanOk : Bool
  vectorOk : Bool
  kvaserOk : Bool

/-- The four physical discovery backends, in the order
`discover_interfaces_safe` runs them. -/
inductive Backend where
  | socketcan
  | pcan
  | vector
  | kvaser
deriving DecidableEq, Repr

/-- The interface-type string every descriptor of a backend carries. -/
def Backend.kind : Backend → String
  | .socketcan => "socketcan"
  | .pcan => "pcan"
  | .vector => "vector"
  | .kvaser => "kvaser"

/-- What a backend's method returns in a given environment. -/
def backendRaw (env : DiscoveryEnv) : Backend → List HardwareInterface
  | .socketcan => discoverSocketcan env.ipScan env.sysfsScan
  | .pcan => discoverPcan env.pcanLib env.pcanDetect
  | .vector => discoverVector env.vectorLib env.vectorDetect
  | .kvaser => discoverKvaser env.kvaserLib env.kvaserDetect

/-- Whether a backend's timeout-protected call completed. -/
def backendOk (env : DiscoveryEnv) : Backend → Bool
  | .socketcan => env.socketcanOk
  | .pcan => env.pcanOk
  | .vector => env.vectorOk
  | .kvaser => env.kvaserOk

/-- A backend's contribution to the discovery result: empty when its call
raised or timed out. -/
def backendContribution (env : DiscoveryEnv) (b : Backend) : List HardwareInterface :=
  if backendOk env b then backendRaw env b else []

/-- `HardwareDiscovery.discover_interfaces_safe`: the virtual descriptors
first, then each backend's contribution in order, concatenated. -/
def discover_interfaces_safe (env : DiscoveryEnv) : List HardwareInterface :=
  discoverVirtual ++
    (backendContribution env .socketcan ++
      (backendContribution env .pcan ++
        (backendContribution env .vector ++ backendContribution env .kvaser)))

/-! ### `CANNetwork` (`network.py`) -/

/-- `CANNetwork` of `network.py`: its configuration, optionally assigned
hardware, and at most one connection.  (The periodic-transmission scheduler
and the symbol parser are not modelled; no claim concerns them.) -/
structure CANNetwork where
  config : NetworkConfiguration
  hardware : Option HardwareInterface := none
  connection : Option CANConnection := none
deriving DecidableEq, Repr

/-- `CANNetwork.is_connected` (the `try` around it only guards attribute
races; functionally it is this test). -/
def CANNetwork.is_connected (n : CANNetwork) : Bool :=
  match n.connection with
  | some c => c.is_connected
  | none => false

/-- `CANNetwork.set_hardware`: raises `RuntimeError` while connected
(modelled as `Except.error`, the caller state unchanged); otherwise only
replaces the hardware reference. -/
def CANNetwork.set_hardware (n : CANNetwork) (hw : HardwareInterface) :
    Except String CANNetwork :=
  if n.is_connected then .error "Cannot change hardware while connected"
  else .ok { n with hardware := some hw }

/-- `CANNetwork.connect`: fails without hardware; no-op success if the
current connection is live; otherwise replaces the connection with a fresh
`CANConnection` and attempts it.  (On success the periodic timer also
starts; the scheduler is not modelled.) -/
def CANNetwork.connect (n : CANNetwork) (now : Int) (openOk : Bool) :
    CANNetwork × List ConnEvent × Bool :=
  match n.hardware with
  | none => (n, [.errorOccurred n.config.network_id "No hardware interface assigned"], false)
  | some hw =>
    if n.is_connected then
      (n, [], true)
    else
      let conn := CANConnection.mkInit n.config.network_id n.config hw
      let r := conn.connect now openOk
      ({ n with connection := some r.1 }, r.2.1, r.2.2)

/-- `CANNetwork.disconnect`: stops the scheduler, calls the connection's
`disconnect()` (which swallows its own teardown errors) and drops the
connection object.  The resulting network state does not depend on whether
a teardown step raised, because the connection reference is cleared either
way. -/
def CANNetwork.disconnect (n : CANNetwork) : CANNetwork :=
  { n with connection := none }

/-- `CANNetwork.send_message`: delegates to the connection when present. -/
def CANNetwork.send_message (n : CANNetwork) (now : Int) (msg_id : Nat)
    (data : List Nat) (is_extended : Bool) (sendOk : Bool) :
    CANNetwork × List ConnEvent × Bool :=
  match n.connection with
  | some c =>
    let r := c.send_message now msg_id data is_extended sendOk
    ({ n with connection := some r.1 }, r.2.1, r.2.2)
  | none => (n, [], false)

/-- `network.get_statistics().get('message_count', 0)` as the Manager's
aggregation reads it: 0 when the network has no connection. -/
def CANNetwork.statMessageCount (n : CANNetwork) : Nat :=
  match n.connection with
  | some c => c.stats.message_count
  | none => 0

/-- `network.get_statistics().get('error_count', 0)` as the Manager's
aggregation reads it. -/
def CANNetwork.statErrorCount (n : CANNetwork) : Nat :=
  match n.connection with
  | some c => c.stats.error_count
  | none => 0

/-! ### `MultiNetworkManager` (`multi_network_manager.py`)

Python's insertion-ordered `dict` is modelled as an association list with
`lookup?` / `upsert` / `updateAt` / `eraseKey` mirroring indexing,
`d[k] = v` (an overwrite keeps the original position), in-place value
update, and `del d[k]`. -/

/-- `d.get(k)` on an association list. -/
def lookup? {α : Type} : List (String × α) → String → Option α
  | [], _ => none
  | (k', v) :: rest, k => if k' = k then some v else lookup? rest k

/-- `d[k] = v`: overwrite in place, or append. -/
def upsert {α : Type} : List (String × α) → String → α → List (String × α)
  | [], k, v => [(k, v)]
  | (k', v') :: rest, k, v =>
    if k' = k then (k, v) :: rest else (k', v') :: upsert rest k v

/-- In-place update of the value at a key (mutating a stored object). -/
def updateAt {α : Type} : List (String × α) → String → (α → α) → List (String × α)
  | [], _, _ => []
  | (k', v') :: rest, k, f =>
    if k' = k then (k', f v') :: rest else (k', v') :: updateAt rest k f

/-- `del d[k]`. -/
def eraseKey {α : Type} : List (String × α) → String → List (String × α)
  | [], _ => []
  | (k', v') :: rest, k =>
    if k' = k then rest else (k', v') :: eraseKey rest k

/-- The `self.global_stats` dictionary of `MultiNetworkManager`. -/
structure GlobalStats where
  total_networks : Int := 0
  active_connections : Int := 0
  total_messages : Int := 0
  total_errors : Int := 0
  start_time : Int := 0
deriving DecidableEq, Repr

/-- `MultiNetworkManager` state: the network map, the hardware snapshot map
(keyed `type:channel`), and the maintained global-stats dictionary. -/
structure Manager where
  networks : List (String × CANNetwork) := []
  hardware_interfaces : List (String × HardwareInterface) := []
  global_stats : GlobalStats := {}
deriving DecidableEq, Repr

/-- `MultiNetworkManager.__init__` (fresh maps, stats zeroed,
`start_time = time.time()`). -/
def Manager.mkInit (startTime : Int) : Manager :=
  { global_stats := { start_time := startTime } }

/-- `MultiNetworkManager.discover_hardware`: rebuilds the snapshot map from
the discovered list, keyed `type:channel` (a later duplicate key overwrites
the earlier value, dict-style). -/
def Manager.discover_hardware (m : Manager) (found : List HardwareInterface) : Manager :=
  { m with hardware_interfaces := found.foldl (fun acc i => upsert acc i.key i) [] }

/-- `MultiNetworkManager._is_bus_number_used`. -/
def Manager.is_bus_number_used (m : Manager) (b : Int) : Bool :=
  m.networks.any fun p => p.2.config.bus_number = b

/-- The `while bus_number in used_numbers: bus_number += 1` loop of
`_get_next_available_bus_number`, with explicit fuel (the loop can collide
at most `used.length` times). -/
def nextFrom (used : List Int) : Int → Nat → Int
  | n, 0 => n
  | n, fuel + 1 => if n ∈ used then nextFrom used (n + 1) fuel else n

/-- `MultiNetworkManager._get_next_available_bus_number`. -/
def Manager.next_available_bus_number (m : Manager) : Int :=
  nextFrom (m.networks.map fun p => p.2.config.bus_number) 1 m.networks.length

/-- `MultiNetworkManager.create_network`: reassigns the bus number when
non-positive or already used, registers the network under its
`network_id` (a collision overwrites dict-style), bumps the maintained
`total_networks` counter.  (`save_configuration` touches only the file
system.)  Returns the new network id. -/
def Manager.create_network (m : Manager) (config : NetworkConfiguration) :
    Manager × String :=
  let cfg :=
    if config.bus_number ≤ 0 ∨ m.is_bus_number_used config.bus_number = true then
      { config with bus_number := m.next_available_bus_number }
    else config
  ({ m with
      networks := upsert m.networks cfg.network_id { config := cfg }
      global_stats := { m.global_stats with
        total_networks := m.global_stats.total_networks + 1 } },
   cfg.network_id)

/-- `MultiNetworkManager.remove_network`: disconnects the network first if
connected (directly via `network.disconnect()` — note this path does not
touch `active_connections`), removes it, decrements `total_networks`. -/
def Manager.remove_network (m : Manager) (network_id : String) : Manager × Bool :=
  match lookup? m.networks network_id with
  | none => (m, false)
  | some net =>
    let networks1 :=
      if net.is_connected then updateAt m.networks network_id CANNetwork.disconnect
      else m.networks
    ({ m with
        networks := eraseKey networks1 network_id
        global_stats := { m.global_stats with
          total_networks := m.global_stats.total_networks - 1 } },
     true)

/-- `MultiNetworkManager._is_hardware_in_use`: scans all networks except
the excluded one for a live connection bound to the given key. -/
def Manager.is_hardware_in_use (m : Manager) (hardware_key : String)
    (exclude_network : Option String) : Bool :=
  m.networks.any fun p =>
    if some p.1 = exclude_network then false
    else
      match p.2.hardware with
      | some hw => p.2.is_connected && decide (hw.key = hardware_key)
      | none => false

/-- `MultiNetworkManager.connect_network`.  `now`/`openOk` parametrize the
underlying transport open.  Returns the new manager, the boolean result and
the emitted/re-broadcast events. -/
def Manager.connect_network (m : Manager) (network_id hardware_key : String)
    (now : Int) (openOk : Bool) : Manager × Bool × List ConnEvent :=
  match lookup? m.networks network_id with
  | none => (m, false, [.errorOccurred network_id "Network not found"])
  | some net =>
    match lookup? m.hardware_interfaces hardware_key with
    | none => (m, false, [.errorOccurred network_id "Hardware interface not found"])
    | some hardware =>
      if m.is_hardware_in_use hardware_key (some network_id) then
        (m, false, [.errorOccurred network_id "Hardware interface already in use"])
      else
        match net.set_hardware hardware with
        | .error e => (m, false, [.errorOccurred network_id ("Connection failed: " ++ e)])
        | .ok net1 =>
          let r := net1.connect now openOk
          if r.2.2 then
            let net2 := { r.1 with
              config := { r.1.config with last_hardware_interface := hardware_key } }
            ({ m with
                networks := upsert m.networks network_id net2
                hardware_interfaces := updateAt m.hardware_interfaces hardware_key
                  fun hw => { hw with available := false }
                global_stats := { m.global_stats with
                  active_connections := m.global_stats.active_connections + 1 } },
             true, r.2.1)
          else
            ({ m with networks := upsert m.networks network_id r.1 }, false, r.2.1)

/-- `MultiNetworkManager.disconnect_network`: when the network is connected,
re-marks its hardware available, disconnects it and decrements
`active_connections`; otherwise a no-op success. -/
def Manager.disconnect_network (m : Manager) (network_id : String) : Manager × Bool :=
  match lookup? m.networks network_id with
  | none => (m, false)
  | some net =>
    if net.is_connected then
      let hwifs :=
        match net.hardware with
        | some hw => updateAt m.hardware_interfaces hw.key fun h => { h with available := true }
        | none => m.hardware_interfaces
      ({ m with
          networks := upsert m.networks network_id net.disconnect
          hardware_interfaces := hwifs
          global_stats := { m.global_stats with
            active_connections := m.global_stats.active_connections - 1 } },
       true)
    else (m, true)

/-- `MultiNetworkManager.send_message`: delegates to the named network. -/
def Manager.send_message (m : Manager) (network_id : String) (now : Int) (msg_id : Nat)
    (data : List Nat) (is_extended sendOk : Bool) : Manager × Bool :=
  match lookup? m.networks network_id with
  | none => (m, false)
  | some net =>
    let r := net.send_message now msg_id data is_extended sendOk
    ({ m with networks := upsert m.networks network_id r.1 }, r.2.2)

/-- `MultiNetworkManager.disconnect_all_networks`. -/
def Manager.disconnect_all_networks (m : Manager) : Manager :=
  (m.networks.map Prod.fst).foldl (fun acc nid => (acc.disconnect_network nid).1) m

/-- The dictionary `get_global_statistics` returns. -/
structure GlobalStatsReport where
  total_networks : Int
  active_connections : Int
  total_messages : Nat
  total_errors : Nat
  start_time : Int
  uptime : Int
deriving DecidableEq, Repr

/-- `MultiNetworkManager.get_global_statistics`: copies the maintained
`global_stats` dictionary, then overwrites `total_messages`/`total_errors`
with sums over the per-network statistics and computes `uptime`.
(`total_networks` and `active_connections` come straight from the copy.) -/
def Manager.get_global_statistics (m : Manager) (now : Int) : GlobalStatsReport where
  total_networks := m.global_stats.total_networks
  active_connections := m.global_stats.active_connections
  total_messages := (m.networks.map fun p => p.2.statMessageCount).sum
  total_errors := (m.networks.map fun p => p.2.statErrorCount).sum
  start_time := m.global_stats.start_time
  uptime := now - m.global_stats.start_time

/-- The per-entry loop of `load_configuration`: a `from_dict` failure
aborts the whole load (the exception lands in the outer `except`, which
returns `False`).  Each entry carries the fresh uuid `from_dict` would
generate. -/
def Manager.loadEntries : Manager → List (ConfigDict × String) → Manager × Bool
  | m, [] => (m, true)
  | m, (d, fid) :: rest =>
    match NetworkConfiguration.from_dict d fid with
    | .error _ => (m, false)
    | .ok cfg => Manager.loadEntries (m.create_network cfg).1 rest

/-- `MultiNetworkManager.load_configuration` when the file exists:
disconnect everything, clear the network map (note: `total_networks` is
**not** reset), then create one network per loaded entry. -/
def Manager.load_configuration (m : Manager) (entries : List (ConfigDict × String)) :
    Manager × Bool :=
  let m1 := m.disconnect_all_networks
  let m2 := { m1 with networks := [] }
  Manager.loadEntries m2 entries

/-- Creating a batch of configurations in order (the loop of
`load_configuration`, or a test driving `create_network` N times). -/
def createAll (m : Manager) (configs : List NetworkConfiguration) : Manager :=
  configs.foldl (fun acc c => (acc.create_network c).1) m

/-- The states a `MultiNetworkManager` can reach through its operations. -/
inductive Reachable : Manager → Prop where
  | init (startTime : Int) : Reachable (Manager.mkInit startTime)
  | discover {m : Manager} (found : List HardwareInterface) :
      Reachable m → Reachable (m.discover_hardware found)
  | create {m : Manager} (config : NetworkConfiguration) :
      Reachable m → Reachable (m.create_network config).1
  | remove {m : Manager} (network_id : String) :
      Reachable m → Reachable (m.remove_network network_id).1
  | connect {m : Manager} (network_id hardware_key : String) (now : Int) (openOk : Bool) :
      Reachable m → Reachable (m.connect_network network_id hardware_key now openOk).1
  | disconnect {m : Manager} (network_id : String) :
      Reachable m → Reachable (m.disconnect_network network_id).1
  | send {m : Manager} (network_id : String) (now : Int) (msg_id : Nat)
      (data : List Nat) (is_extended sendOk : Bool) :
      Reachable m → Reachable (m.send_message network_id now msg_id data is_extended sendOk).1
  | disconnectAll {m : Manager} : Reachable m → Reachable m.disconnect_all_networks
  | load {m : Manager} (entries : List (ConfigDict × String)) :
      Reachable m → Reachable (m.load_configuration entries).1

/-- The hardware identity a network is bound to, if any. -/
def netKeyOf (n : CANNetwork) : Option String := n.hardware.map HardwareInterface.key

/-- Hardware exclusivity: no two distinct held networks are simultaneously
connected with the same hardware key. -/
def HardwareExclusive (m : Manager) : Prop :=
  m.networks.Pairwise fun a b =>
    a.2.is_connected = true → b.2.is_connected = true → netKeyOf a.2 ≠ netKeyOf b.2

/-- Auxiliary invariant: a connected network has hardware assigned. -/
def ConnectedHasHardware (m : Manager) : Prop :=
  ∀ p ∈ m.networks, p.2.is_connected = true → p.2.hardware.isSome = true

/-- The network map has dict semantics: its keys are distinct. -/
def KeysNodup (m : Manager) : Prop := (m.networks.map Prod.fst).Nodup

/-- Bus-number uniqueness across held configs. -/
def BusNumbersDistinct (m : Manager) : Prop :=
  m.networks.Pairwise fun a b => a.2.config.bus_number ≠ b.2.config.bus_number

/-- Snapshot-map consistency: each hardware entry sits under its own key. -/
def HardwareKeysConsistent (m : Manager) : Prop :=
  ∀ p ∈ m.hardware_interfaces, p.2.key = p.1

/-- The inductive invariant carried through all Manager operations. -/
def ManagerInv (m : Manager) : Prop :=
  KeysNodup m ∧ ConnectedHasHardware m ∧ HardwareExclusive m
    ∧ BusNumbersDistinct m ∧ HardwareKeysConsistent m

/-- Fixture: a PEAK hardware descriptor as discovery produces it. -/
def pcanHw : HardwareInterface :=
  mkHardwareInterface "pcan" "PCAN_USBBUS1" "PEAK USB CAN 1"
    "PEAK CAN interface PCAN_USBBUS1 (Hardware detected)"

/-- Fixture: a virtual hardware descriptor. -/
def virtualHw0 : HardwareInterface :=
  mkHardwareInterface "virtual" "virtual0" "Virtual CAN 0"
    "Virtual CAN interface for testing and simulation (Channel 0)"

/-- Fixture: a configuration with the dataclass defaults. -/
def sampleConfig : NetworkConfiguration := { network_id := "net-1" }

/-- Fixture: a freshly constructed connection on PEAK hardware. -/
def sampleConn : CANConnection := CANConnection.mkInit "net-1" sampleConfig pcanHw

/-- Fixture: a freshly constructed connection on virtual hardware. -/
def virtualConn : CANConnection := CANConnection.mkInit "net-1" sampleConfig virtualHw0

/-- Fixture: a discovery environment where the SocketCAN backend finds
`can0` (up) and the PCAN backend detects `PCAN_USBBUS1`. -/
def sampleDiscoveryEnv : DiscoveryEnv where
  ipScan := [("can0", .up)]
  sysfsScan := []
  pcanLib := true
  pcanDetect := fun ch => ch == "PCAN_USBBUS1"
  vectorLib := false
  vectorDetect := fun _ => false
  kvaserLib := false
  kvaserDetect := fun _ => false
  socketcanOk := true
  pcanOk := true
  vectorOk := true
  kvaserOk := true

/-- Fixture: the SocketCAN descriptor for `can0` as discovery produces it. -/
def socketcanCan0 : HardwareInterface :=
  mkHardwareInterface "socketcan" "can0" "SocketCAN can0" (linkDescription "can0" .up) true

/-- Fixture: configuration of network "a". -/
def cfgA : NetworkConfiguration := { network_id := "a", name := "Net A" }

/-- Fixture: configuration of network "b". -/
def cfgB : NetworkConfiguration := { network_id := "b", name := "Net B" }

/-- Fixture: a manager holding networks "a" (connected to `virtual:virtual0`)
and "b" (disconnected), built through Manager operations. -/
def mgrConnectedA : Manager :=
  (((((Manager.mkInit 0).discover_hardware [virtualHw0]).create_network cfgA).1.create_network
      cfgB).1.connect_network "a" "virtual:virtual0" 0 true).1

/-- Fixture: the state of network "a" inside `mgrConnectedA`. -/
def netA1 : CANNetwork := (lookup? mgrConnectedA.networks "a").getD { config := cfgA }

/-- Fixture: the state of network "b" inside `mgrConnectedA`. -/
def netB1 : CANNetwork := (lookup? mgrConnectedA.networks "b").getD { config := cfgB }

/-- Fixture: a manager where "a" was connected and then removed — the
maintained `active_connections` counter is left at 1. -/
def mgrDrift : Manager :=
  ((((Manager.mkInit 0).discover_hardware [virtualHw0]).create_network cfgA).1.connect_network
      "a" "virtual:virtual0" 0 true).1

/-- Fixture: a connected connection whose config is listen-only. -/
def listenOnlyConn : CANConnection :=
  { sampleConn with
      state := .connected
      busOpen := true
      notifierActive := true
      config := { sampleConfig with listen_only := true } }

/-- Fixture: a connection that completed a physical connect. -/
def connectedConn : CANConnection :=
  { sampleConn with state := .connected, busOpen := true, notifierActive := true }

/-- Fixture: a network currently connected (for the set_hardware guard). -/
def connectedNet : CANNetwork :=
  { config := sampleConfig, hardware := some pcanHw, connection := some connectedConn }

end QCan

namespace QCan

theorem NetworkProtocol.fromValue_value (p : NetworkProtocol) :
    NetworkProtocol.fromValue p.value = some p := by
  cases p <;> rfl

end QCan

/-- C4: persistence round-trip.  (i) `from_dict (to_dict c)` restores every
field of `c` (hence in particular name, description, busNumber, bitrate,
samplePoint, protocol, listenOnly, enableErrorFrames, autoReconnect,
reconnectDelaySeconds, messageFilters, symbolFilePath, lastHardwareKey);
(ii) a form with every key missing deserializes successfully to the default
configuration; (iii) deserialization can only fail when the protocol key is
present and carries an invalid value — missing keys never make it fail. -/
theorem C4_persistence_round_trip :
    (∀ (c : QCan.NetworkConfiguration) (freshId : String),
        QCan.NetworkConfiguration.from_dict c.to_dict freshId = .ok c)
    ∧ (∀ freshId : String,
        QCan.NetworkConfiguration.from_dict QCan.ConfigDict.empty freshId =
          .ok (QCan.NetworkConfiguration.defaultWith freshId))
    ∧ (∀ (d : QCan.ConfigDict) (freshId : String),
        (QCan.NetworkConfiguration.from_dict d freshId).isOk = true
        ∨ ∃ s, d.protocol = some s ∧ QCan.NetworkProtocol.fromValue s = none) := by
  refine ⟨fun c freshId => ?_, fun freshId => rfl, fun d freshId => ?_⟩
  · cases c with
    | mk id nm ds bn br sp pr lo ef ar rd mf sy lh =>
      simp [QCan.NetworkConfiguration.to_dict, QCan.NetworkConfiguration.from_dict,
        QCan.NetworkProtocol.fromValue_value]
  · cases hp : d.protocol with
    | none =>
      left
      simp [QCan.NetworkConfiguration.from_dict, hp, QCan.NetworkConfiguration.defaultWith,
        QCan.NetworkProtocol.fromValue, QCan.NetworkProtocol.value, Except.isOk, Except.toBool]
    | some s =>
      cases hv : QCan.NetworkProtocol.fromValue s with
      | none => exact Or.inr ⟨s, rfl, hv⟩
      | some p =>
        left
        simp [QCan.NetworkConfiguration.from_dict, hp, hv, Except.isOk, Except.toBool]

namespace QCan

@[simp] theorem setState_state (c : CANConnection) (s : ConnectionState) :
    (c.setState s).1.state = s := by
  unfold CANConnection.setState
  split
  · rfl
  · next h => exact not_not.mp h

@[simp] theorem setState_timerArmed (c : CANConnection) (s : ConnectionState) :
    (c.setState s).1.timerArmed = c.timerArmed := by
  unfold CANConnection.setState; split <;> rfl

@[simp] theorem setState_timerDelayMs (c : CANConnection) (s : ConnectionState) :
    (c.setState s).1.timerDelayMs = c.timerDelayMs := by
  unfold CANConnection.setState; split <;> rfl

@[simp] theorem setState_busOpen (c : CANConnection) (s : ConnectionState) :
    (c.setState s).1.busOpen = c.busOpen := by
  unfold CANConnection.setState; split <;> rfl

@[simp] theorem setState_notifierActive (c : CANConnection) (s : ConnectionState) :
    (c.setState s).1.notifierActive = c.notifierActive := by
  unfold CANConnection.setState; split <;> rfl

@[simp] theorem setState_virtualActive (c : CANConnection) (s : ConnectionState) :
    (c.setState s).1.virtualActive = c.virtualActive := by
  unfold CANConnection.setState; split <;> rfl

@[simp] theorem setState_config (c : CANConnection) (s : ConnectionState) :
    (c.setState s).1.config = c.config := by
  unfold CANConnection.setState; split <;> rfl

@[simp] theorem setState_hardware (c : CANConnection) (s : ConnectionState) :
    (c.setState s).1.hardware = c.hardware := by
  unfold CANConnection.setState; split <;> rfl

@[simp] theorem setState_network_id (c : CANConnection) (s : ConnectionState) :
    (c.setState s).1.network_id = c.network_id := by
  unfold CANConnection.setState; split <;> rfl

@[simp] theorem setState_stats (c : CANConnection) (s : ConnectionState) :
    (c.setState s).1.stats = c.stats := by
  unfold CANConnection.setState; split <;> rfl

theorem setState_events_ne (c : CANConnection) (s : ConnectionState) (h : c.state ≠ s) :
    (c.setState s).2 = [.stateChanged c.network_id s] := by
  unfold CANConnection.setState
  simp [h]

theorem setState_events_eq (c : CANConnection) (s : ConnectionState) (h : c.state = s) :
    (c.setState s).2 = [] := by
  unfold CANConnection.setState
  simp [h]

end QCan

/-- C10: a Connection emits a `state_changed` event exactly when the
requested new state differs from its current state — setting the same state
twice in a row emits nothing — and after every such emission the stored
state equals the state carried by the emitted event. -/
theorem C10_state_change_emission (c : QCan.CANConnection) (s : QCan.ConnectionState) :
    ((c.setState s).2 =
      if s = c.state then [] else [QCan.ConnEvent.stateChanged c.network_id s])
    ∧ (∀ t, (c.setState s).2 = [QCan.ConnEvent.stateChanged c.network_id t] →
        (c.setState s).1.state = t) := by
  constructor
  · by_cases h : s = c.state
    · rw [if_pos h]
      exact QCan.setState_events_eq c s h.symm
    · rw [if_neg h]
      exact QCan.setState_events_ne c s (fun hh => h hh.symm)
  · intro t ht
    by_cases h : s = c.state
    · rw [QCan.setState_events_eq c s h.symm] at ht
      cases ht
    · rw [QCan.setState_events_ne c s (fun hh => h hh.symm)] at ht
      have hst : s = t := by
        injection ht with h1 h2
        injection h1
      rw [QCan.setState_state, hst]

/-- Witness for C10: a fresh (Disconnected) connection moved to `Connected`
emits exactly one event, and the stored state matches the carried state. -/
theorem C10_state_change_emission_witness :
    ((QCan.sampleConn.setState .connected).2 =
      [QCan.ConnEvent.stateChanged "net-1" .connected])
    ∧ (QCan.sampleConn.setState .connected).1.state = .connected := by
  refine ⟨?_, ?_⟩
  · have h := (C10_state_change_emission QCan.sampleConn .connected).1
    simpa [QCan.sampleConn, QCan.CANConnection.mkInit] using h
  · exact (C10_state_change_emission QCan.sampleConn .connected).2 .connected rfl

/-- C3 (amended): for every Connection on a **non-virtual** hardware kind
whose config has autoReconnect = true, a `connect()` whose transport open
fails produces the state sequence Disconnected → Connecting → Error →
Reconnecting, arms the single-shot timer for `reconnect_delay` seconds
(`reconnect_delay * 1000` ms), and when the timer fires the Connection
re-enters Connecting.  (For `virtual` hardware the failure path leaves the
Connection in Error without arming the timer: see the counterexample.) -/
theorem C3_reconnect_sequencing (c : QCan.CANConnection) (now now2 : Int) (openOk2 : Bool)
    (hs : c.state = .disconnected) (har : c.config.auto_reconnect = true)
    (hv : ¬QCan.pyLower c.hardware.interface_type = "virtual") :
    ((c.connect now false).2.1.filterMap QCan.ConnEvent.stateCarried =
      [.connecting, .error, .reconnecting])
    ∧ (c.connect now false).1.state = .reconnecting
    ∧ (c.connect now false).1.timerArmed = true
    ∧ (c.connect now false).1.timerDelayMs = c.config.reconnect_delay * 1000
    ∧ (((c.connect now false).1.attemptReconnect now2 openOk2).2.filterMap
        QCan.ConnEvent.stateCarried).head? = some .connecting := by
  have hcon : c.connect now false =
      ({ c with
          state := .reconnecting
          timerArmed := true
          timerDelayMs := c.config.reconnect_delay * 1000 },
       [.stateChanged c.network_id .connecting,
        .errorOccurred c.network_id "Failed to connect",
        .stateChanged c.network_id .error,
        .stateChanged c.network_id .reconnecting], false) := by
    unfold QCan.CANConnection.connect
    simp [hs, QCan.CANConnection.setState, QCan.CANConnection.scheduleReconnect, har, hv]
  refine ⟨?_, ?_, ?_, ?_, ?_⟩
  · rw [hcon]; rfl
  · rw [hcon]
  · rw [hcon]
  · rw [hcon]
  · rw [hcon]
    unfold QCan.CANConnection.attemptReconnect QCan.CANConnection.connect
    cases openOk2 <;>
      simp [QCan.CANConnection.setState, QCan.CANConnection.connectVirtual,
        QCan.CANConnection.scheduleReconnect, QCan.ConnEvent.stateCarried, har, hv]

/-- Witness for C3 (amended) at a concrete PEAK-hardware connection. -/
theorem C3_reconnect_sequencing_witness :
    ((QCan.sampleConn.connect 0 false).2.1.filterMap QCan.ConnEvent.stateCarried =
      [.connecting, .error, .reconnecting])
    ∧ (QCan.sampleConn.connect 0 false).1.state = .reconnecting
    ∧ (QCan.sampleConn.connect 0 false).1.timerArmed = true
    ∧ (QCan.sampleConn.connect 0 false).1.timerDelayMs = 5 * 1000
    ∧ (((QCan.sampleConn.connect 0 false).1.attemptReconnect 7 true).2.filterMap
        QCan.ConnEvent.stateCarried).head? = some .connecting :=
  C3_reconnect_sequencing QCan.sampleConn 0 7 true rfl rfl (by decide)

/-- Counterexample to C3 as stated: on **virtual** hardware, a failing
`connect()` with autoReconnect = true stops at Error — no Reconnecting state,
no reconnect timer armed — because `_connect_virtual` catches the failure
itself and never calls `_schedule_reconnect`. -/
theorem C3_virtual_counterexample :
    QCan.virtualConn.state = .disconnected
    ∧ QCan.virtualConn.config.auto_reconnect = true
    ∧ QCan.virtualConn.hardware.interface_type = "virtual"
    ∧ (QCan.virtualConn.connect 0 false).1.state = .error
    ∧ (QCan.virtualConn.connect 0 false).1.timerArmed = false
    ∧ (QCan.virtualConn.connect 0 false).2.1.filterMap QCan.ConnEvent.stateCarried =
        [.connecting, .error] := by
  exact ⟨rfl, rfl, rfl, by decide, by decide, by decide⟩

/-- C5 (amended): `disconnect()` always cancels the pending reconnect timer
(the timer stop precedes any fallible step), and when no teardown step
raises it reaches Disconnected with the transport handle, notifier and
virtual network all released, from any starting state.  (When a teardown
step raises, the error is swallowed as a diagnostic but Disconnected is not
reached: see the counterexample.) -/
theorem C5_disconnect_totality (c : QCan.CANConnection) (vOk nOk bOk : Bool) :
    (c.disconnect vOk nOk bOk).1.timerArmed = false
    ∧ (c.disconnect true true true).1.state = .disconnected
    ∧ (c.disconnect true true true).1.busOpen = false
    ∧ (c.disconnect true true true).1.notifierActive = false
    ∧ (c.disconnect true true true).1.virtualActive = false := by
  constructor
  · unfold QCan.CANConnection.disconnect
    dsimp only
    split
    · rfl
    · split
      · rfl
      · split
        · rfl
        · simp
  · refine ⟨?_, ?_, ?_, ?_⟩ <;>
      · unfold QCan.CANConnection.disconnect
        dsimp only
        simp

/-- Counterexample to C5 as stated: a Connected connection whose notifier
stop raises does **not** reach Disconnected — the exception is swallowed
(only a diagnostic is emitted) but the state and the open bus handle are
left as they were. -/
theorem C5_teardown_counterexample :
    QCan.connectedConn.state = .connected
    ∧ (QCan.connectedConn.disconnect true false true).1.state = .connected
    ∧ (QCan.connectedConn.disconnect true false true).1.busOpen = true
    ∧ (QCan.connectedConn.disconnect true false true).2 =
        [QCan.ConnEvent.errorOccurred "net-1" "Error during disconnect"] := by
  exact ⟨rfl, by decide, by decide, by decide⟩

/-- C6 (code evaluated at the failing input): the NotConnected and
ListenOnly rejections hold as claimed (counters untouched), but the success
branch is unreachable: after the wire send succeeds, building the tracking
`CANMessage` passes a `bus_number=` keyword that `messages.py`'s dataclass
does not accept, so every send raises `TypeError`, lands in the error
handler, increments `error_count` (never `tx_count`/`message_count`),
emits an error diagnostic instead of a transmitted-frame event, and
returns failure. -/
theorem C6_send_contract_bug (c : QCan.CANConnection) (now : Int) (mid : Nat)
    (d : List Nat) (ext sendOk : Bool) :
    (c.state ≠ .connected →
      c.send_message now mid d ext sendOk =
        (c, [.errorOccurred c.network_id "Not connected to CAN interface"], false))
    ∧ (c.state = .connected → c.busOpen = true → c.config.listen_only = true →
      c.send_message now mid d ext sendOk =
        (c, [.errorOccurred c.network_id "Cannot send messages in listen-only mode"], false))
    ∧ (c.state = .connected → c.busOpen = true → c.config.listen_only = false →
      ((c.send_message now mid d ext true).2.2 = false
       ∧ (c.send_message now mid d ext true).1.stats.tx_count = c.stats.tx_count
       ∧ (c.send_message now mid d ext true).1.stats.message_count = c.stats.message_count
       ∧ (c.send_message now mid d ext true).1.stats.error_count = c.stats.error_count + 1
       ∧ (c.send_message now mid d ext true).2.1 =
          [.errorOccurred c.network_id
            "Failed to send message: TypeError: __init__ got an unexpected keyword argument bus_number"])) := by
  refine ⟨?_, ?_, ?_⟩
  · intro h
    unfold QCan.CANConnection.send_message
    simp [h]
  · intro h1 h2 h3
    unfold QCan.CANConnection.send_message
    simp [h1, h2, h3]
  · intro h1 h2 h3
    unfold QCan.CANConnection.send_message
    simp [h1, h2, h3, QCan.canMessageCtorWithBusNumber]

/-- Witness for C6 at concrete connections: a disconnected one, a connected
listen-only one, and a connected sendable one. -/
theorem C6_send_contract_bug_witness :
    (QCan.sampleConn.send_message 0 291 [1, 2] false true =
      (QCan.sampleConn, [.errorOccurred "net-1" "Not connected to CAN interface"], false))
    ∧ (QCan.listenOnlyConn.send_message 0 291 [1, 2] false true =
      (QCan.listenOnlyConn,
       [.errorOccurred "net-1" "Cannot send messages in listen-only mode"], false))
    ∧ ((QCan.connectedConn.send_message 0 291 [1, 2] false true).2.2 = false
       ∧ (QCan.connectedConn.send_message 0 291 [1, 2] false true).1.stats.tx_count = 0
       ∧ (QCan.connectedConn.send_message 0 291 [1, 2] false true).1.stats.error_count = 1) := by
  refine ⟨?_, ?_, ?_, ?_, ?_⟩
  · exact (C6_send_contract_bug QCan.sampleConn 0 291 [1, 2] false true).1 (by decide)
  · exact (C6_send_contract_bug QCan.listenOnlyConn 0 291 [1, 2] false true).2.1 rfl rfl rfl
  · exact ((C6_send_contract_bug QCan.connectedConn 0 291 [1, 2] false true).2.2 rfl rfl rfl).1
  · exact ((C6_send_contract_bug QCan.connectedConn 0 291 [1, 2] false true).2.2 rfl rfl rfl).2.1
  · exact ((C6_send_contract_bug QCan.connectedConn 0 291 [1, 2] false true).2.2 rfl rfl rfl).2.2.2.1

namespace QCan

theorem addSysfs_preserve (P : HardwareInterface → Prop)
    (hP : ∀ e : SysfsEntry, P (mkHardwareInterface "socketcan" e.name
      ("SocketCAN " ++ e.name) (sysfsDescription e) (sysfsAvailable e))) :
    ∀ (l : List SysfsEntry) (acc : List HardwareInterface),
      (∀ d ∈ acc, P d) → ∀ d ∈ l.foldl addSysfs acc, P d := by
  intro l
  induction l with
  | nil => intro acc hacc d hd; exact hacc d hd
  | cons e rest ih =>
    intro acc hacc d hd
    refine ih (addSysfs acc e) ?_ d hd
    intro d' hd'
    unfold addSysfs at hd'
    by_cases hc : acc.any fun iface => iface.channel = e.name
    · rw [if_pos hc] at hd'
      exact hacc d' hd'
    · rw [if_neg hc] at hd'
      rcases List.mem_append.mp hd' with h | h
      · exact hacc d' h
      · rcases List.mem_singleton.mp h with rfl
        exact hP e

theorem mem_discoverSocketcan_kind (ipScan : List (String × LinkState))
    (sysfsScan : List SysfsEntry) (d : HardwareInterface)
    (hd : d ∈ discoverSocketcan ipScan sysfsScan) : d.interface_type = "socketcan" := by
  refine addSysfs_preserve (fun x => x.interface_type = "socketcan")
    (fun e => rfl) sysfsScan _ ?_ d hd
  intro d' hd'
  rcases List.mem_map.mp hd' with ⟨p, _, rfl⟩
  rfl

theorem mem_discoverPcan_kind (lib : Bool) (detect : String → Bool) (d : HardwareInterface)
    (hd : d ∈ discoverPcan lib detect) : d.interface_type = "pcan" := by
  unfold discoverPcan at hd
  by_cases hl : lib
  · rw [if_pos hl] at hd
    rcases List.mem_filterMap.mp hd with ⟨p, _, hp⟩
    by_cases hdet : detect p.1
    · rw [if_pos hdet] at hp
      cases hp
      rfl
    · rw [if_neg hdet] at hp
      cases hp
  · rw [if_neg hl] at hd
    cases hd

theorem mem_discoverVector_kind (lib : Bool) (detect : Nat → Bool) (d : HardwareInterface)
    (hd : d ∈ discoverVector lib detect) : d.interface_type = "vector" := by
  unfold discoverVector at hd
  by_cases hl : lib
  · rw [if_pos hl] at hd
    rcases List.mem_filterMap.mp hd with ⟨ch, _, hp⟩
    by_cases hdet : detect ch
    · rw [if_pos hdet] at hp
      cases hp
      rfl
    · rw [if_neg hdet] at hp
      cases hp
  · rw [if_neg hl] at hd
    cases hd

theorem mem_discoverKvaser_kind (lib : Bool) (detect : Nat → Bool) (d : HardwareInterface)
    (hd : d ∈ discoverKvaser lib detect) : d.interface_type = "kvaser" := by
  unfold discoverKvaser at hd
  by_cases hl : lib
  · rw [if_pos hl] at hd
    rcases List.mem_filterMap.mp hd with ⟨ch, _, hp⟩
    by_cases hdet : detect ch
    · rw [if_pos hdet] at hp
      cases hp
      rfl
    · rw [if_neg hdet] at hp
      cases hp
  · rw [if_neg hl] at hd
    cases hd

theorem mem_backendContribution_kind (env : DiscoveryEnv) (b : Backend)
    (d : HardwareInterface) (hd : d ∈ backendContribution env b) :
    d.interface_type = b.kind := by
  unfold backendContribution at hd
  by_cases hok : backendOk env b
  · rw [if_pos hok] at hd
    cases b with
    | socketcan => exact mem_discoverSocketcan_kind _ _ d hd
    | pcan => exact mem_discoverPcan_kind _ _ d hd
    | vector => exact mem_discoverVector_kind _ _ d hd
    | kvaser => exact mem_discoverKvaser_kind _ _ d hd
  · rw [if_neg hok] at hd
    cases hd

theorem backend_kind_injective (b1 b2 : Backend) (h : b1 ≠ b2) :
    b1.kind ≠ b2.kind := by
  cases b1 <;> cases b2 <;> simp_all [Backend.kind]

end QCan

/-- C8: every `refresh()` result begins with the fixed virtual descriptors
`virtual0`–`virtual3` (each available), placed first; and descriptors
contributed by different backends can never collide on a `(kind, channel)`
key — each backend produces a fixed interface type of its own — so for any
two same-key descriptors from different backends, only the first-seen one
appears (the condition is never realized). -/
theorem C8_discovery_output_shape :
    (∀ env : QCan.DiscoveryEnv,
      (QCan.discover_interfaces_safe env).take 4 = QCan.discoverVirtual)
    ∧ QCan.discoverVirtual.map QCan.HardwareInterface.channel =
        ["virtual0", "virtual1", "virtual2", "virtual3"]
    ∧ (∀ d ∈ QCan.discoverVirtual, d.available = true)
    ∧ (∀ (env : QCan.DiscoveryEnv) (b1 b2 : QCan.Backend)
        (d1 d2 : QCan.HardwareInterface),
        b1 ≠ b2 → d1 ∈ QCan.backendContribution env b1 →
        d2 ∈ QCan.backendContribution env b2 →
        (d1.interface_type, d1.channel) ≠ (d2.interface_type, d2.channel)) := by
  refine ⟨fun env => ?_, rfl, ?_, fun env b1 b2 d1 d2 hb h1 h2 => ?_⟩
  · show (QCan.discoverVirtual ++ _).take 4 = QCan.discoverVirtual
    rw [show 4 = QCan.discoverVirtual.length from rfl]
    exact List.take_left _ _
  · intro d hd
    rcases List.mem_map.mp hd with ⟨i, _, rfl⟩
    rfl
  · intro hcontra
    have hk1 := QCan.mem_backendContribution_kind env b1 d1 h1
    have hk2 := QCan.mem_backendContribution_kind env b2 d2 h2
    have : d1.interface_type = d2.interface_type := congrArg Prod.fst hcontra
    exact QCan.backend_kind_injective b1 b2 hb (hk1 ▸ hk2 ▸ this)

/-- Witness for C8 at a concrete environment: the SocketCAN `can0`
descriptor and the PCAN `PCAN_USBBUS1` descriptor come from different
backends and have different keys. -/
theorem C8_discovery_output_shape_witness :
    (QCan.discover_interfaces_safe QCan.sampleDiscoveryEnv).take 4 = QCan.discoverVirtual
    ∧ (QCan.socketcanCan0.interface_type, QCan.socketcanCan0.channel) ≠
        (QCan.pcanHw.interface_type, QCan.pcanHw.channel) := by
  constructor
  · exact C8_discovery_output_shape.1 QCan.sampleDiscoveryEnv
  · exact C8_discovery_output_shape.2.2.2 QCan.sampleDiscoveryEnv .socketcan .pcan
      QCan.socketcanCan0 QCan.pcanHw (by decide) (by decide) (by decide)

/-- C7 (amended): `get_global_statistics` computes `total_messages` and
`total_errors` fresh at query time by summing per-network connection
counters, but `total_networks` and `active_connections` are read from the
separately maintained `global_stats` counters — which can drift (see the
counterexample). -/
theorem C7_global_stats_aggregation (m : QCan.Manager) (now : Int) :
    (m.get_global_statistics now).total_messages =
        (m.networks.map fun p => p.2.statMessageCount).sum
    ∧ (m.get_global_statistics now).total_errors =
        (m.networks.map fun p => p.2.statErrorCount).sum
    ∧ (m.get_global_statistics now).total_networks = m.global_stats.total_networks
    ∧ (m.get_global_statistics now).active_connections =
        m.global_stats.active_connections := by
  exact ⟨rfl, rfl, rfl, rfl⟩

/-- Counterexample to C7 as stated: connect network "a", then remove it
(`remove_network` disconnects via `network.disconnect()` without touching
`active_connections`).  The reported `active_connections` is a maintained
counter left at 1 while the Manager holds no networks at all — it has
drifted from any per-network sum. -/
theorem C7_drift_counterexample :
    ((QCan.mgrDrift.remove_network "a").1.get_global_statistics 5).active_connections = 1
    ∧ (QCan.mgrDrift.remove_network "a").1.networks = [] := by
  exact ⟨rfl, rfl⟩

/-- C9: `set_hardware` on a connected network raises `RuntimeError`
(modelled as an error result, the network unchanged), and on a
non-connected network replaces only the hardware reference. -/
theorem C9_set_hardware_guard (n : QCan.CANNetwork) (hw : QCan.HardwareInterface) :
    (n.is_connected = true →
      n.set_hardware hw = .error "Cannot change hardware while connected")
    ∧ (n.is_connected = false →
      n.set_hardware hw = .ok { n with hardware := some hw }) := by
  constructor
  · intro h
    unfold QCan.CANNetwork.set_hardware
    rw [if_pos h]
  · intro h
    unfold QCan.CANNetwork.set_hardware
    rw [if_neg (by rw [h]; exact Bool.false_ne_true)]

/-- Witness for C9: a connected network rejects the change; a fresh network
accepts it, keeping config and connection untouched. -/
theorem C9_set_hardware_guard_witness :
    (QCan.connectedNet.set_hardware QCan.virtualHw0 =
      .error "Cannot change hardware while connected")
    ∧ ((QCan.CANNetwork.mk QCan.sampleConfig none none).set_hardware QCan.virtualHw0 =
      .ok (QCan.CANNetwork.mk QCan.sampleConfig (some QCan.virtualHw0) none)) := by
  constructor
  · exact (C9_set_hardware_guard QCan.connectedNet QCan.virtualHw0).1 rfl
  · exact (C9_set_hardware_guard (QCan.CANNetwork.mk QCan.sampleConfig none none)
      QCan.virtualHw0).2 rfl

namespace QCan

theorem mem_upsert {α : Type} (l : List (String × α)) (k : String) (v : α)
    (p : String × α) (hp : p ∈ upsert l k v) : p ∈ l ∨ p = (k, v) := by
  induction l with
  | nil =>
    right
    simp only [upsert, List.mem_singleton] at hp
    exact hp
  | cons q rest ih =>
    unfold upsert at hp
    by_cases hk : q.1 = k
    · rw [if_pos hk] at hp
      rcases List.mem_cons.mp hp with rfl | h
      · right; rfl
      · left; exact List.mem_cons_of_mem _ h
    · rw [if_neg hk] at hp
      rcases List.mem_cons.mp hp with rfl | h
      · left; exact List.mem_cons_self _ _
      · rcases ih h with h' | h'
        · left; exact List.mem_cons_of_mem _ h'
        · right; exact h'

theorem map_fst_upsert_mem {α : Type} (l : List (String × α)) (k : String) (v : α)
    (h : k ∈ l.map Prod.fst) : (upsert l k v).map Prod.fst = l.map Prod.fst := by
  induction l with
  | nil => cases h
  | cons q rest ih =>
    unfold upsert
    by_cases hk : q.1 = k
    · rw [if_pos hk]
      simp [hk]
    · rw [if_neg hk]
      rcases List.mem_map.mp h with ⟨p, hp, hpk⟩
      rcases List.mem_cons.mp hp with rfl | hp'
      · exact absurd hpk hk
      · simp only [List.map_cons]
        rw [ih (List.mem_map.mpr ⟨p, hp', hpk⟩)]

theorem upsert_not_mem {α : Type} (l : List (String × α)) (k : String) (v : α)
    (h : k ∉ l.map Prod.fst) : upsert l k v = l ++ [(k, v)] := by
  induction l with
  | nil => rfl
  | cons q rest ih =>
    have hk : q.1 ≠ k := by
      intro hc
      exact h (List.mem_map.mpr ⟨q, List.mem_cons_self _ _, hc⟩)
    have hrest : k ∉ rest.map Prod.fst := by
      intro hc
      rcases List.mem_map.mp hc with ⟨p, hp, hpk⟩
      exact h (List.mem_map.mpr ⟨p, List.mem_cons_of_mem _ hp, hpk⟩)
    unfold upsert
    rw [if_neg hk, ih hrest]
    rfl

theorem nodup_fst_upsert {α : Type} (l : List (String × α)) (k : String) (v : α)
    (h : (l.map Prod.fst).Nodup) : ((upsert l k v).map Prod.fst).Nodup := by
  by_cases hk : k ∈ l.map Prod.fst
  · rw [map_fst_upsert_mem l k v hk]
    exact h
  · rw [upsert_not_mem l k v hk]
    simp only [List.map_append]
    exact List.Nodup.append h (List.nodup_singleton _) (by
      intro a ha hb
      simp only [List.map_cons, List.map_nil, List.mem_singleton] at hb
      exact hk (hb ▸ ha))

end QCan

namespace QCan

theorem lookup?_mem {α : Type} (l : List (String × α)) (k : String) (v : α)
    (h : lookup? l k = some v) : (k, v) ∈ l := by
  induction l with
  | nil => cases h
  | cons q rest ih =>
    unfold lookup? at h
    by_cases hk : q.1 = k
    · rw [if_pos hk] at h
      cases h
      exact List.mem_cons.mpr (Or.inl (by cases q; simp_all))
    · rw [if_neg hk] at h
      exact List.mem_cons_of_mem _ (ih h)

theorem lookup?_upsert_self {α : Type} (l : List (String × α)) (k : String) (v : α) :
    lookup? (upsert l k v) k = some v := by
  induction l with
  | nil => simp [upsert, lookup?]
  | cons q rest ih =>
    unfold upsert
    by_cases hk : q.1 = k
    · rw [if_pos hk]
      unfold lookup?
      rw [if_pos rfl]
    · rw [if_neg hk]
      unfold lookup?
      rw [if_neg hk]
      exact ih

theorem mem_updateAt {α : Type} (l : List (String × α)) (k : String) (f : α → α)
    (p : String × α) (hp : p ∈ updateAt l k f) :
    p ∈ l ∨ ∃ v, (k, v) ∈ l ∧ p = (k, f v) := by
  induction l with
  | nil => cases hp
  | cons q rest ih =>
    unfold updateAt at hp
    by_cases hk : q.1 = k
    · rw [if_pos hk] at hp
      rcases List.mem_cons.mp hp with rfl | h
      · right
        exact ⟨q.2, List.mem_cons.mpr (Or.inl (by cases q; simp_all)), by rw [hk]⟩
      · left
        exact List.mem_cons_of_mem _ h
    · rw [if_neg hk] at hp
      rcases List.mem_cons.mp hp with rfl | h
      · left
        exact List.mem_cons_self _ _
      · rcases ih h with h' | ⟨v, hv, rfl⟩
        · left
          exact List.mem_cons_of_mem _ h'
        · right
          exact ⟨v, List.mem_cons_of_mem _ hv, rfl⟩

theorem eraseKey_sublist {α : Type} (l : List (String × α)) (k : String) :
    List.Sublist (eraseKey l k) l := by
  induction l with
  | nil => exact List.Sublist.refl _
  | cons q rest ih =>
    unfold eraseKey
    by_cases hk : q.1 = k
    · rw [if_pos hk]
      exact List.sublist_cons_self _ _
    · rw [if_neg hk]
      exact List.Sublist.cons₂ _ ih

theorem eraseKey_updateAt {α : Type} (l : List (String × α)) (k : String) (f : α → α) :
    eraseKey (updateAt l k f) k = eraseKey l k := by
  induction l with
  | nil => rfl
  | cons q rest ih =>
    unfold updateAt
    by_cases hk : q.1 = k
    · rw [if_pos hk]
      show eraseKey ((q.1, f q.2) :: rest) k = eraseKey (q :: rest) k
      unfold eraseKey
      rw [if_pos hk, if_pos hk]
    · rw [if_neg hk]
      unfold eraseKey
      rw [if_neg hk, if_neg hk, ih]

theorem pairwise_upsert_of_ne {α : Type} {R : (String × α) → (String × α) → Prop}
    (l : List (String × α)) (k : String) (v : α)
    (hnd : (l.map Prod.fst).Nodup) (hR : l.Pairwise R)
    (hnew : ∀ p ∈ l, p.1 ≠ k → R p (k, v) ∧ R (k, v) p) :
    (upsert l k v).Pairwise R := by
  induction l with
  | nil =>
    show List.Pairwise R [(k, v)]
    exact List.pairwise_singleton R (k, v)
  | cons q rest ih =>
    rcases List.pairwise_cons.mp hR with ⟨hq, hrest⟩
    have hnd' : (rest.map Prod.fst).Nodup := (List.nodup_cons.mp (by simpa using hnd)).2
    have hqrest : q.1 ∉ rest.map Prod.fst := (List.nodup_cons.mp (by simpa using hnd)).1
    unfold upsert
    by_cases hk : q.1 = k
    · rw [if_pos hk]
      refine List.pairwise_cons.mpr ⟨?_, hrest⟩
      intro p hp
      have hpk : p.1 ≠ k := by
        intro hc
        exact hqrest (by
          rw [hk, ← hc]
          exact List.mem_map.mpr ⟨p, hp, rfl⟩)
      exact (hnew p (List.mem_cons_of_mem _ hp) hpk).2
    · rw [if_neg hk]
      refine List.pairwise_cons.mpr ⟨?_, ih hnd' hrest ?_⟩
      · intro p hp
        rcases mem_upsert rest k v p hp with h' | rfl
        · exact hq p h'
        · exact (hnew q (List.mem_cons_self _ _) hk).1
      · intro p hp hpk
        exact hnew p (List.mem_cons_of_mem _ hp) hpk

theorem filter_length_lt_of_mem (used : List Int) (n : Int) (hn : n ∈ used) :
    (used.filter fun x => decide (n + 1 ≤ x)).length <
      (used.filter fun x => decide (n ≤ x)).length := by
  induction used with
  | nil => cases hn
  | cons a l ih =>
    have hmono := List.Sublist.length_le (List.Sublist.map id
      (List.monotone_filter_right l (p := fun x => decide (n + 1 ≤ x))
        (q := fun x => decide (n ≤ x)) (by
          intro x hx
          simp only [decide_eq_true_eq] at hx ⊢
          omega)))
    simp only [List.map_id] at hmono
    rcases List.mem_cons.mp hn with rfl | hmem
    · simp only [List.filter_cons]
      have h1 : decide (n + 1 ≤ n) = false := by simp
      have h2 : decide (n ≤ n) = true := by simp
      rw [h1, h2]
      simp only [Bool.false_eq_true, if_false, if_true, List.length_cons]
      omega
    · simp only [List.filter_cons]
      have hstep := ih hmem
      by_cases ha : n + 1 ≤ a
      · have h1 : decide (n + 1 ≤ a) = true := decide_eq_true ha
        have h2 : decide (n ≤ a) = true := decide_eq_true (by omega)
        rw [h1, h2]
        simpa using Nat.succ_lt_succ hstep
      · have h1 : decide (n + 1 ≤ a) = false := decide_eq_false ha
        rw [h1]
        by_cases h2 : n ≤ a
        · rw [decide_eq_true h2]
          simp only [Bool.false_eq_true, if_false, if_true, List.length_cons]
          omega
        · rw [decide_eq_false h2]
          simpa using hstep

theorem nextFrom_zero (used : List Int) (n : Int) : nextFrom used n 0 = n := rfl

theorem nextFrom_succ (used : List Int) (n : Int) (f : Nat) :
    nextFrom used n (f + 1) = if n ∈ used then nextFrom used (n + 1) f else n := rfl

theorem nextFrom_spec (used : List Int) :
    ∀ (fuel : Nat) (n : Int),
      (used.filter fun x => decide (n ≤ x)).length ≤ fuel →
      nextFrom used n fuel ∉ used ∧ n ≤ nextFrom used n fuel ∧
        ∀ k : Int, n ≤ k → k < nextFrom used n fuel → k ∈ used := by
  intro fuel
  induction fuel with
  | zero =>
    intro n h
    have hn : n ∉ used := by
      intro hc
      have hmem : n ∈ used.filter fun x => decide (n ≤ x) :=
        List.mem_filter.mpr ⟨hc, by simp⟩
      have := List.length_pos.mpr (List.ne_nil_of_mem hmem)
      omega
    refine ⟨hn, le_refl n, fun k hk1 hk2 => ?_⟩
    rw [nextFrom_zero] at hk2
    omega
  | succ f ih =>
    intro n h
    by_cases hn : n ∈ used
    · have hlt := filter_length_lt_of_mem used n hn
      obtain ⟨h1, h2, h3⟩ := ih (n + 1) (by omega)
      have heq : nextFrom used n (f + 1) = nextFrom used (n + 1) f := by
        rw [nextFrom_succ, if_pos hn]
      rw [heq]
      refine ⟨h1, by omega, fun k hk1 hk2 => ?_⟩
      by_cases hkn : k = n
      · exact hkn ▸ hn
      · exact h3 k (by omega) hk2
    · have heq : nextFrom used n (f + 1) = n := by
        unfold nextFrom
        rw [if_neg hn]
      rw [heq]
      exact ⟨hn, le_refl n, fun k hk1 hk2 => absurd hk1 (by omega)⟩

theorem is_bus_number_used_iff (m : Manager) (b : Int) :
    m.is_bus_number_used b = true ↔
      b ∈ m.networks.map fun p => p.2.config.bus_number := by
  unfold Manager.is_bus_number_used
  rw [List.any_eq_true]
  constructor
  · rintro ⟨p, hp, hb⟩
    simp only [decide_eq_true_eq] at hb
    exact List.mem_map.mpr ⟨p, hp, hb⟩
  · intro hb
    rcases List.mem_map.mp hb with ⟨p, hp, hb'⟩
    exact ⟨p, hp, by simp [hb']⟩

theorem next_available_spec (m : Manager) :
    1 ≤ m.next_available_bus_number
    ∧ m.is_bus_number_used m.next_available_bus_number = false
    ∧ ∀ k : Int, 1 ≤ k → k < m.next_available_bus_number →
        m.is_bus_number_used k = true := by
  have hfuel : ((m.networks.map fun p => p.2.config.bus_number).filter
      fun x => decide ((1 : Int) ≤ x)).length ≤ m.networks.length := by
    have h1 := List.length_filter_le (fun x => decide ((1 : Int) ≤ x))
      (m.networks.map fun p => p.2.config.bus_number)
    simpa using h1
  obtain ⟨h1, h2, h3⟩ := nextFrom_spec (m.networks.map fun p => p.2.config.bus_number)
    m.networks.length 1 hfuel
  refine ⟨h2, ?_, fun k hk1 hk2 => ?_⟩
  · rw [← Bool.not_eq_true]
    intro hc
    exact h1 ((is_bus_number_used_iff m _).mp hc)
  · exact (is_bus_number_used_iff m k).mpr (h3 k hk1 hk2)

end QCan

namespace QCan

theorem conn_send_state (c : CANConnection) (now : Int) (mid : Nat) (d : List Nat)
    (ext sendOk : Bool) : (c.send_message now mid d ext sendOk).1.state = c.state := by
  unfold CANConnection.send_message
  repeat' split
  all_goals rfl

theorem net_connect_hardware (n : CANNetwork) (now : Int) (op : Bool) :
    (n.connect now op).1.hardware = n.hardware := by
  unfold CANNetwork.connect
  repeat' split
  all_goals rfl

theorem net_connect_config (n : CANNetwork) (now : Int) (op : Bool) :
    (n.connect now op).1.config = n.config := by
  unfold CANNetwork.connect
  repeat' split
  all_goals rfl

theorem net_send_hardware (n : CANNetwork) (now : Int) (mid : Nat) (d : List Nat)
    (ext sendOk : Bool) :
    (n.send_message now mid d ext sendOk).1.hardware = n.hardware := by
  unfold CANNetwork.send_message
  split
  all_goals rfl

theorem net_send_config (n : CANNetwork) (now : Int) (mid : Nat) (d : List Nat)
    (ext sendOk : Bool) :
    (n.send_message now mid d ext sendOk).1.config = n.config := by
  unfold CANNetwork.send_message
  split
  all_goals rfl

theorem net_send_connected (n : CANNetwork) (now : Int) (mid : Nat) (d : List Nat)
    (ext sendOk : Bool) :
    (n.send_message now mid d ext sendOk).1.is_connected = n.is_connected := by
  unfold CANNetwork.send_message
  cases hc : n.connection with
  | none => rfl
  | some c =>
    show CANNetwork.is_connected _ = _
    unfold CANNetwork.is_connected
    rw [hc]
    dsimp only
    unfold CANConnection.is_connected
    rw [conn_send_state]

theorem set_hardware_ok (n : CANNetwork) (hw : HardwareInterface) (n1 : CANNetwork)
    (h : n.set_hardware hw = .ok n1) :
    n.is_connected = false ∧ n1 = { n with hardware := some hw } := by
  unfold CANNetwork.set_hardware at h
  by_cases hc : n.is_connected = true
  · rw [if_pos hc] at h
    cases h
  · rw [if_neg hc] at h
    cases h
    exact ⟨by revert hc; cases n.is_connected <;> simp, rfl⟩

theorem is_hardware_in_use_false_spec (m : Manager) (key : String) (ex : Option String)
    (h : m.is_hardware_in_use key ex = false) :
    ∀ p ∈ m.networks, some p.1 ≠ ex → p.2.is_connected = true →
      ∀ hw, p.2.hardware = some hw → hw.key ≠ key := by
  unfold Manager.is_hardware_in_use at h
  rw [List.any_eq_false] at h
  intro p hp hex hconn hw hhw hkey
  have hp' := h p hp
  rw [if_neg hex, hhw] at hp'
  dsimp only at hp'
  exact hp' (by rw [hconn, hkey]; simp)

theorem consistent_updateAt (l : List (String × HardwareInterface)) (k : String)
    (f : HardwareInterface → HardwareInterface) (hf : ∀ h, (f h).key = h.key)
    (hc : ∀ p ∈ l, p.2.key = p.1) : ∀ p ∈ updateAt l k f, p.2.key = p.1 := by
  intro p hp
  rcases mem_updateAt _ _ _ p hp with h | ⟨v, hv, rfl⟩
  · exact hc p h
  · show (f v).key = k
    rw [hf v]
    exact hc (k, v) hv

theorem exclusiveRel_symm : Symmetric (fun a b : String × CANNetwork =>
    a.2.is_connected = true → b.2.is_connected = true → netKeyOf a.2 ≠ netKeyOf b.2) :=
  fun _ _ h hb ha => (h ha hb).symm

theorem busRel_symm : Symmetric (fun a b : String × CANNetwork =>
    a.2.config.bus_number ≠ b.2.config.bus_number) :=
  fun _ _ h => h.symm

end QCan

namespace QCan

theorem hardware_fold_consistent (found : List HardwareInterface) :
    ∀ acc : List (String × HardwareInterface),
      (∀ p ∈ acc, p.2.key = p.1) →
      ∀ p ∈ found.foldl (fun acc i => upsert acc i.key i) acc, p.2.key = p.1 := by
  induction found with
  | nil => intro acc hacc p hp; exact hacc p hp
  | cons i rest ih =>
    intro acc hacc p hp
    refine ih (upsert acc i.key i) ?_ p hp
    intro q hq
    rcases mem_upsert _ _ _ q hq with h | rfl
    · exact hacc q h
    · rfl

theorem inv_mkInit (startTime : Int) : ManagerInv (Manager.mkInit startTime) := by
  refine ⟨List.nodup_nil, ?_, List.Pairwise.nil, List.Pairwise.nil, ?_⟩
  · intro p hp
    cases hp
  · intro p hp
    cases hp

theorem inv_discover (m : Manager) (found : List HardwareInterface)
    (hinv : ManagerInv m) : ManagerInv (m.discover_hardware found) := by
  obtain ⟨hnd, hch, hex, hbus, hhw⟩ := hinv
  exact ⟨hnd, hch, hex, hbus,
    hardware_fold_consistent found [] (by intro p hp; cases hp)⟩

theorem inv_create_aux (m : Manager) (cfg : NetworkConfiguration) (gs : GlobalStats)
    (hnd : KeysNodup m) (hch : ConnectedHasHardware m) (hex : HardwareExclusive m)
    (hbus : BusNumbersDistinct m) (hhw : HardwareKeysConsistent m)
    (hfresh : ∀ p ∈ m.networks, p.2.config.bus_number ≠ cfg.bus_number) :
    ManagerInv { networks := upsert m.networks cfg.network_id { config := cfg }
                 hardware_interfaces := m.hardware_interfaces
                 global_stats := gs } := by
  refine ⟨nodup_fst_upsert _ _ _ hnd, ?_, ?_, ?_, hhw⟩
  · intro p hp
    rcases mem_upsert _ _ _ p hp with h | rfl
    · exact hch p h
    · intro habs
      simp [CANNetwork.is_connected] at habs
  · refine pairwise_upsert_of_ne _ _ _ hnd hex ?_
    intro p hp hpk
    refine ⟨fun _ habs => ?_, fun habs _ => ?_⟩ <;>
      simp [CANNetwork.is_connected] at habs
  · refine pairwise_upsert_of_ne _ _ _ hnd hbus ?_
    intro p hp hpk
    exact ⟨hfresh p hp, fun hcc => hfresh p hp hcc.symm⟩

theorem inv_create (m : Manager) (config : NetworkConfiguration)
    (hinv : ManagerInv m) : ManagerInv (m.create_network config).1 := by
  obtain ⟨hnd, hch, hex, hbus, hhw⟩ := hinv
  unfold Manager.create_network
  dsimp only
  by_cases hc : config.bus_number ≤ 0 ∨ m.is_bus_number_used config.bus_number = true
  · rw [if_pos hc]
    refine inv_create_aux m _ _ hnd hch hex hbus hhw ?_
    intro p hp hcontra
    have hused : m.is_bus_number_used m.next_available_bus_number = true :=
      (is_bus_number_used_iff m _).mpr (List.mem_map.mpr ⟨p, hp, hcontra⟩)
    rw [(next_available_spec m).2.1] at hused
    cases hused
  · rw [if_neg hc]
    push_neg at hc
    refine inv_create_aux m _ _ hnd hch hex hbus hhw ?_
    intro p hp hcontra
    have hused : m.is_bus_number_used config.bus_number = true :=
      (is_bus_number_used_iff m _).mpr (List.mem_map.mpr ⟨p, hp, hcontra⟩)
    exact absurd hused hc.2

end QCan

namespace QCan

theorem inv_remove (m : Manager) (network_id : String) (hinv : ManagerInv m) :
    ManagerInv (m.remove_network network_id).1 := by
  obtain ⟨hnd, hch, hex, hbus, hhw⟩ := hinv
  unfold Manager.remove_network
  cases hnet : lookup? m.networks network_id with
  | none => exact ⟨hnd, hch, hex, hbus, hhw⟩
  | some net =>
    dsimp only
    have hkey : ∀ l1 : List (String × CANNetwork),
        List.Sublist l1 m.networks →
        ManagerInv { networks := l1
                     hardware_interfaces := m.hardware_interfaces
                     global_stats := { m.global_stats with
                        total_networks := m.global_stats.total_networks - 1 } } := by
      intro l1 hsub
      refine ⟨?_, ?_, ?_, ?_, hhw⟩
      · exact List.Nodup.sublist (List.Sublist.map Prod.fst hsub) hnd
      · intro p hp
        exact hch p (List.Sublist.mem hp hsub)
      · exact List.Pairwise.sublist hsub hex
      · exact List.Pairwise.sublist hsub hbus
    by_cases hc : net.is_connected = true
    · rw [if_pos hc, eraseKey_updateAt]
      exact hkey _ (eraseKey_sublist _ _)
    · rw [if_neg hc]
      exact hkey _ (eraseKey_sublist _ _)

theorem inv_disconnect (m : Manager) (network_id : String) (hinv : ManagerInv m) :
    ManagerInv (m.disconnect_network network_id).1 := by
  obtain ⟨hnd, hch, hex, hbus, hhw⟩ := hinv
  unfold Manager.disconnect_network
  cases hnet : lookup? m.networks network_id with
  | none => exact ⟨hnd, hch, hex, hbus, hhw⟩
  | some net =>
    dsimp only
    by_cases hc : net.is_connected = true
    · rw [if_pos hc]
      have hmem := lookup?_mem _ _ _ hnet
      have hhw' : HardwareKeysConsistent
          { networks := m.networks
            hardware_interfaces :=
              match net.hardware with
              | some hw => updateAt m.hardware_interfaces hw.key
                  fun h => { h with available := true }
              | none => m.hardware_interfaces
            global_stats := m.global_stats } := by
        cases net.hardware with
        | none => exact hhw
        | some hw =>
          exact consistent_updateAt _ _ _ (fun h => rfl) hhw
      refine ⟨nodup_fst_upsert _ _ _ hnd, ?_, ?_, ?_, hhw'⟩
      · intro p hp
        rcases mem_upsert _ _ _ p hp with h | rfl
        · exact hch p h
        · intro habs
          simp [CANNetwork.disconnect, CANNetwork.is_connected] at habs
      · refine pairwise_upsert_of_ne _ _ _ hnd hex ?_
        intro p hp hpk
        refine ⟨fun _ habs => ?_, fun habs _ => ?_⟩ <;>
          simp [CANNetwork.disconnect, CANNetwork.is_connected] at habs
      · refine pairwise_upsert_of_ne _ _ _ hnd hbus ?_
        intro p hp hpk
        have hne : p ≠ (network_id, net) := fun hc' => hpk (congrArg Prod.fst hc')
        have hR := List.Pairwise.forall busRel_symm hbus hp hmem hne
        exact ⟨hR, fun hcc => hR hcc.symm⟩
    · rw [if_neg hc]
      exact ⟨hnd, hch, hex, hbus, hhw⟩

theorem inv_send (m : Manager) (network_id : String) (now : Int) (mid : Nat)
    (d : List Nat) (ext sendOk : Bool) (hinv : ManagerInv m) :
    ManagerInv (m.send_message network_id now mid d ext sendOk).1 := by
  obtain ⟨hnd, hch, hex, hbus, hhw⟩ := hinv
  unfold Manager.send_message
  cases hnet : lookup? m.networks network_id with
  | none => exact ⟨hnd, hch, hex, hbus, hhw⟩
  | some net =>
    dsimp only
    have hmem := lookup?_mem _ _ _ hnet
    have hhw1 := net_send_hardware net now mid d ext sendOk
    have hcf := net_send_config net now mid d ext sendOk
    have hic := net_send_connected net now mid d ext sendOk
    have hkv : netKeyOf (net.send_message now mid d ext sendOk).1 = netKeyOf net := by
      unfold netKeyOf
      rw [hhw1]
    refine ⟨nodup_fst_upsert _ _ _ hnd, ?_, ?_, ?_, hhw⟩
    · intro p hp
      rcases mem_upsert _ _ _ p hp with h | rfl
      · exact hch p h
      · intro hcn
        show ((net.send_message now mid d ext sendOk).1.hardware).isSome = true
        rw [hhw1]
        rw [hic] at hcn
        exact hch (network_id, net) hmem hcn
    · refine pairwise_upsert_of_ne _ _ _ hnd hex ?_
      intro p hp hpk
      have hne : p ≠ (network_id, net) := fun hc' => hpk (congrArg Prod.fst hc')
      have hR := List.Pairwise.forall exclusiveRel_symm hex hp hmem hne
      constructor
      · intro h1 h2
        rw [hic] at h2
        rw [hkv]
        exact hR h1 h2
      · intro h1 h2
        rw [hic] at h1
        rw [hkv]
        exact (hR h2 h1).symm
    · refine pairwise_upsert_of_ne _ _ _ hnd hbus ?_
      intro p hp hpk
      have hne : p ≠ (network_id, net) := fun hc' => hpk (congrArg Prod.fst hc')
      have hR := List.Pairwise.forall busRel_symm hbus hp hmem hne
      constructor
      · show p.2.config.bus_number ≠ (net.send_message now mid d ext sendOk).1.config.bus_number
        rw [hcf]
        exact hR
      · show (net.send_message now mid d ext sendOk).1.config.bus_number ≠ p.2.config.bus_number
        rw [hcf]
        exact fun hcc => hR hcc.symm

end QCan

namespace QCan

theorem inv_connect (m : Manager) (network_id hardware_key : String) (now : Int)
    (openOk : Bool) (hinv : ManagerInv m) :
    ManagerInv (m.connect_network network_id hardware_key now openOk).1 := by
  obtain ⟨hnd, hch, hex, hbus, hhw⟩ := hinv
  unfold Manager.connect_network
  cases hnet : lookup? m.networks network_id with
  | none => exact ⟨hnd, hch, hex, hbus, hhw⟩
  | some net =>
    cases hhwl : lookup? m.hardware_interfaces hardware_key with
    | none => exact ⟨hnd, hch, hex, hbus, hhw⟩
    | some hardware =>
      dsimp only
      by_cases hiu : m.is_hardware_in_use hardware_key (some network_id) = true
      · rw [if_pos hiu]
        exact ⟨hnd, hch, hex, hbus, hhw⟩
      · rw [if_neg hiu]
        have hiu' : m.is_hardware_in_use hardware_key (some network_id) = false := by
          revert hiu
          cases m.is_hardware_in_use hardware_key (some network_id) <;> simp
        cases hsh : net.set_hardware hardware with
        | error e => exact ⟨hnd, hch, hex, hbus, hhw⟩
        | ok net1 =>
          obtain ⟨hnc, rfl⟩ := set_hardware_ok net hardware net1 hsh
          have hmem := lookup?_mem _ _ _ hnet
          have hkeycons : hardware.key = hardware_key :=
            hhw _ (lookup?_mem _ _ _ hhwl)
          -- facts about the network stored back (in both branches)
          have hhw1 : ({ net with hardware := some hardware } :
              CANNetwork).connect now openOk |>.1.hardware = some hardware := by
            rw [net_connect_hardware]
          have hcf1 : ({ net with hardware := some hardware} :
              CANNetwork).connect now openOk |>.1.config = net.config := by
            rw [net_connect_config]
          -- core fact: no other network is connected holding this key
          have hcore : ∀ p ∈ m.networks, p.1 ≠ network_id →
              p.2.is_connected = true → netKeyOf p.2 ≠ some hardware.key := by
            intro p hp hpk hpc hkeq
            have hps : p.2.hardware.isSome = true := hch p hp hpc
            cases hph : p.2.hardware with
            | none => rw [hph] at hps; cases hps
            | some hwp =>
              have hkk : hwp.key = hardware.key := by
                unfold netKeyOf at hkeq
                rw [hph] at hkeq
                simpa using hkeq
              refine is_hardware_in_use_false_spec m hardware_key (some network_id)
                hiu' p hp ?_ hpc hwp hph ?_
              · intro hcc
                exact hpk (by injection hcc)
              · rw [hkk, hkeycons]
          have hRbus : ∀ p ∈ m.networks, p.1 ≠ network_id →
              p.2.config.bus_number ≠ net.config.bus_number := by
            intro p hp hpk
            have hne : p ≠ (network_id, net) := fun hc' => hpk (congrArg Prod.fst hc')
            exact List.Pairwise.forall busRel_symm hbus hp hmem hne
          dsimp only
          by_cases hok : (({ net with hardware := some hardware } :
              CANNetwork).connect now openOk).2.2 = true
          · rw [if_pos hok]
            refine ⟨nodup_fst_upsert _ _ _ hnd, ?_, ?_, ?_, ?_⟩
            · intro p hp
              rcases mem_upsert _ _ _ p hp with h | rfl
              · exact hch p h
              · intro _
                show (_ : Option HardwareInterface).isSome = true
                dsimp only
                rw [hhw1]
                rfl
            · refine pairwise_upsert_of_ne _ _ _ hnd hex ?_
              intro p hp hpk
              constructor
              · intro h1 _ hkeq
                unfold netKeyOf at hkeq
                dsimp only at hkeq
                rw [hhw1] at hkeq
                exact hcore p hp hpk h1 hkeq
              · intro _ h1 hkeq
                unfold netKeyOf at hkeq
                dsimp only at hkeq
                rw [hhw1] at hkeq
                exact hcore p hp hpk h1 hkeq.symm
            · refine pairwise_upsert_of_ne _ _ _ hnd hbus ?_
              intro p hp hpk
              constructor
              · intro hcc
                dsimp only at hcc
                rw [hcf1] at hcc
                exact hRbus p hp hpk hcc
              · intro hcc
                dsimp only at hcc
                rw [hcf1] at hcc
                exact hRbus p hp hpk hcc.symm
            · exact consistent_updateAt _ _ _ (fun h => rfl) hhw
          · rw [if_neg hok]
            refine ⟨nodup_fst_upsert _ _ _ hnd, ?_, ?_, ?_, hhw⟩
            · intro p hp
              rcases mem_upsert _ _ _ p hp with h | rfl
              · exact hch p h
              · intro _
                show (_ : Option HardwareInterface).isSome = true
                rw [hhw1]
                rfl
            · refine pairwise_upsert_of_ne _ _ _ hnd hex ?_
              intro p hp hpk
              constructor
              · intro h1 _ hkeq
                unfold netKeyOf at hkeq
                rw [hhw1] at hkeq
                exact hcore p hp hpk h1 hkeq
              · intro _ h1 hkeq
                unfold netKeyOf at hkeq
                rw [hhw1] at hkeq
                exact hcore p hp hpk h1 hkeq.symm
            · refine pairwise_upsert_of_ne _ _ _ hnd hbus ?_
              intro p hp hpk
              constructor
              · intro hcc
                rw [hcf1] at hcc
                exact hRbus p hp hpk hcc
              · intro hcc
                rw [hcf1] at hcc
                exact hRbus p hp hpk hcc.symm

end QCan

namespace QCan

theorem inv_disconnect_fold (ids : List String) :
    ∀ m : Manager, ManagerInv m →
      ManagerInv (ids.foldl (fun acc nid => (acc.disconnect_network nid).1) m) := by
  induction ids with
  | nil => intro m h; exact h
  | cons i rest ih =>
    intro m h
    exact ih _ (inv_disconnect m i h)

theorem inv_disconnect_all (m : Manager) (hinv : ManagerInv m) :
    ManagerInv m.disconnect_all_networks :=
  inv_disconnect_fold _ m hinv

theorem inv_loadEntries (entries : List (ConfigDict × String)) :
    ∀ m : Manager, ManagerInv m → ManagerInv (Manager.loadEntries m entries).1 := by
  induction entries with
  | nil => intro m h; exact h
  | cons e rest ih =>
    intro m h
    obtain ⟨d, fid⟩ := e
    unfold Manager.loadEntries
    cases hfd : NetworkConfiguration.from_dict d fid with
    | error _ => exact h
    | ok cfg => exact ih _ (inv_create m cfg h)

theorem inv_load (m : Manager) (entries : List (ConfigDict × String))
    (hinv : ManagerInv m) : ManagerInv (m.load_configuration entries).1 := by
  obtain ⟨hnd, hch, hex, hbus, hhw⟩ := inv_disconnect_all m hinv
  unfold Manager.load_configuration
  dsimp only
  refine inv_loadEntries entries _ ⟨List.nodup_nil, ?_, List.Pairwise.nil,
    List.Pairwise.nil, hhw⟩
  intro p hp
  cases hp

theorem inv_of_reachable (m : Manager) (h : Reachable m) : ManagerInv m := by
  induction h with
  | init t => exact inv_mkInit t
  | discover found _ ih => exact inv_discover _ found ih
  | create config _ ih => exact inv_create _ config ih
  | remove network_id _ ih => exact inv_remove _ network_id ih
  | connect network_id hardware_key now openOk _ ih =>
      exact inv_connect _ network_id hardware_key now openOk ih
  | disconnect network_id _ ih => exact inv_disconnect _ network_id ih
  | send network_id now msg_id data is_extended sendOk _ ih =>
      exact inv_send _ network_id now msg_id data is_extended sendOk ih
  | disconnectAll _ ih => exact inv_disconnect_all _ ih
  | load entries _ ih => exact inv_load _ entries ih

end QCan

namespace QCan

theorem createAll_seq (configs : List NetworkConfiguration) :
    ∀ (m : Manager) (j : Nat),
      (configs.map NetworkConfiguration.network_id).Nodup →
      (∀ c ∈ configs, c.network_id ∉ m.networks.map Prod.fst) →
      (∀ c ∈ configs, c.bus_number ≤ 0) →
      (m.networks.map fun p => p.2.config.bus_number) =
        (List.range j).map (fun i : Nat => (i : Int) + 1) →
      ((createAll m configs).networks.map fun p => p.2.config.bus_number) =
        (List.range (j + configs.length)).map (fun i : Nat => (i : Int) + 1) := by
  induction configs with
  | nil =>
    intro m j _ _ _ hm
    simpa [createAll] using hm
  | cons c rest ih =>
    intro m j hnodup hfreshids hbus hm
    have hcond : c.bus_number ≤ 0 ∨ m.is_bus_number_used c.bus_number = true :=
      Or.inl (hbus c (List.mem_cons_self _ _))
    have hmemiff : ∀ x : Int, m.is_bus_number_used x = true ↔ 1 ≤ x ∧ x ≤ (j : Int) := by
      intro x
      rw [is_bus_number_used_iff, hm]
      constructor
      · intro hx
        rcases List.mem_map.mp hx with ⟨i, hi, rfl⟩
        have := List.mem_range.mp hi
        constructor <;> omega
      · rintro ⟨hx1, hx2⟩
        have h1 : (x - 1).toNat < j := by omega
        have h2 : ((x - 1).toNat : Int) + 1 = x := by omega
        exact List.mem_map.mpr ⟨(x - 1).toNat, List.mem_range.mpr h1, h2⟩
    have hnext : m.next_available_bus_number = (j : Int) + 1 := by
      obtain ⟨h1, h2, h3⟩ := next_available_spec m
      by_contra hne
      rcases lt_or_gt_of_ne hne with hlt | hgt
      · have hused : m.is_bus_number_used m.next_available_bus_number = true :=
          (hmemiff _).mpr ⟨h1, by omega⟩
        rw [h2] at hused
        cases hused
      · have hused := h3 ((j : Int) + 1) (by omega) hgt
        have := (hmemiff _).mp hused
        omega
    have hid : c.network_id ∉ m.networks.map Prod.fst :=
      hfreshids c (List.mem_cons_self _ _)
    have hstep : (m.create_network c).1.networks =
        m.networks ++ [(c.network_id, { config := { c with bus_number := (j : Int) + 1 } })] := by
      unfold Manager.create_network
      dsimp only
      rw [if_pos hcond, hnext]
      exact upsert_not_mem _ _ _ hid
    have hm' : ((m.create_network c).1.networks.map fun p => p.2.config.bus_number) =
        (List.range (j + 1)).map (fun i : Nat => (i : Int) + 1) := by
      rw [hstep, List.map_append, hm, List.range_succ, List.map_append]
      rfl
    have hkeys : (m.create_network c).1.networks.map Prod.fst =
        m.networks.map Prod.fst ++ [c.network_id] := by
      rw [hstep, List.map_append]
      rfl
    have hrest_fresh : ∀ c' ∈ rest, c'.network_id ∉
        (m.create_network c).1.networks.map Prod.fst := by
      intro c' hc' hmemk
      rw [hkeys] at hmemk
      rcases List.mem_append.mp hmemk with h | h
      · exact hfreshids c' (List.mem_cons_of_mem _ hc') h
      · have hne : c.network_id ∉ rest.map NetworkConfiguration.network_id :=
          (List.nodup_cons.mp (by simpa using hnodup)).1
        rcases List.mem_singleton.mp h with heq
        exact hne (List.mem_map.mpr ⟨c', hc', heq⟩)
    have hres := ih (m.create_network c).1 (j + 1)
      (List.nodup_cons.mp (by simpa using hnodup)).2
      hrest_fresh (fun c' hc' => hbus c' (List.mem_cons_of_mem _ hc')) hm'
    have harith : j + (c :: rest).length = j + 1 + rest.length := by
      simp [List.length_cons]
      omega
    rw [harith]
    simpa [createAll, List.foldl_cons] using hres

end QCan

/-- C1: hardware exclusivity.  (i) In every state reachable by Manager
operations, no two distinct held Networks are simultaneously Connected with
the same hardware key.  (ii) When the requested network and hardware key are
known to the Manager and some *other* held Network is currently Connected
and bound to that key, `connect_network` returns false with the
hardware-in-use diagnostic and changes nothing: the requesting Network stays
as it was (disconnected) and the already-connected Network stays Connected. -/
theorem C1_hardware_exclusivity :
    (∀ m : QCan.Manager, QCan.Reachable m → QCan.HardwareExclusive m)
    ∧ (∀ (m : QCan.Manager) (network_id hardware_key : String)
        (net netB : QCan.CANNetwork) (idB : String) (hw : QCan.HardwareInterface)
        (now : Int) (openOk : Bool),
        QCan.lookup? m.networks network_id = some net →
        QCan.lookup? m.hardware_interfaces hardware_key = some hw →
        (idB, netB) ∈ m.networks → idB ≠ network_id →
        netB.is_connected = true → QCan.netKeyOf netB = some hardware_key →
        m.connect_network network_id hardware_key now openOk =
          (m, false,
           [.errorOccurred network_id "Hardware interface already in use"])) := by
  constructor
  · intro m hreach
    exact (QCan.inv_of_reachable m hreach).2.2.1
  · intro m network_id hardware_key net netB idB hw now openOk hnet hhw hmem hne hconn hkey
    have hiu : m.is_hardware_in_use hardware_key (some network_id) = true := by
      unfold QCan.Manager.is_hardware_in_use
      rw [List.any_eq_true]
      refine ⟨(idB, netB), hmem, ?_⟩
      rw [if_neg (by intro hc; exact hne (by injection hc))]
      cases hph : netB.hardware with
      | none =>
        unfold QCan.netKeyOf at hkey
        rw [hph] at hkey
        cases hkey
      | some hwB =>
        have hkk : hwB.key = hardware_key := by
          unfold QCan.netKeyOf at hkey
          rw [hph] at hkey
          simpa using hkey
        rw [hconn]
        dsimp only
        rw [hkk]
        simp
    unfold QCan.Manager.connect_network
    rw [hnet, hhw]
    dsimp only
    rw [if_pos hiu]

/-- Witness for C1 at a concrete reachable manager: network "a" is
connected to `virtual:virtual0`; connecting "b" to the same key fails with
the in-use diagnostic and leaves the manager unchanged. -/
theorem C1_hardware_exclusivity_witness :
    QCan.HardwareExclusive QCan.mgrConnectedA
    ∧ QCan.mgrConnectedA.connect_network "b" "virtual:virtual0" 1 true =
        (QCan.mgrConnectedA, false,
         [.errorOccurred "b" "Hardware interface already in use"]) := by
  constructor
  · exact C1_hardware_exclusivity.1 QCan.mgrConnectedA
      (QCan.Reachable.connect "a" "virtual:virtual0" 0 true
        (QCan.Reachable.create QCan.cfgB
          (QCan.Reachable.create QCan.cfgA
            (QCan.Reachable.discover [QCan.virtualHw0] (QCan.Reachable.init 0)))))
  · exact C1_hardware_exclusivity.2 QCan.mgrConnectedA "b" "virtual:virtual0"
      QCan.netB1 QCan.netA1 "a" { QCan.virtualHw0 with available := false } 1 true rfl rfl
      (QCan.lookup?_mem _ _ _ rfl) (by decide) rfl rfl

/-- C2 (amended): bus-number assignment.  (i) When the config's busNumber is
non-positive or already used, `create_network` stores the config under the
next available bus number; (ii) that number is exactly the smallest positive
integer not used by any held config; (iii) in every reachable state no two
held configs share a busNumber; (iv) creating N configs with busNumber ≤ 0
into a fresh Manager, with no removals, yields busNumbers 1..N in creation
order.  (With removals interleaved, a creation may reuse a freed smaller
number instead of extending the sequence: see the counterexample.) -/
theorem C2_bus_number_assignment :
    (∀ (m : QCan.Manager) (config : QCan.NetworkConfiguration),
        config.bus_number ≤ 0 ∨ m.is_bus_number_used config.bus_number = true →
        ∃ net, QCan.lookup? (m.create_network config).1.networks config.network_id =
            some net ∧ net.config.bus_number = m.next_available_bus_number)
    ∧ (∀ m : QCan.Manager,
        1 ≤ m.next_available_bus_number
        ∧ m.is_bus_number_used m.next_available_bus_number = false
        ∧ ∀ k : Int, 1 ≤ k → k < m.next_available_bus_number →
            m.is_bus_number_used k = true)
    ∧ (∀ m : QCan.Manager, QCan.Reachable m →
        (m.networks.Pairwise fun a b =>
          a.2.config.bus_number ≠ b.2.config.bus_number))
    ∧ (∀ (startTime : Int) (configs : List QCan.NetworkConfiguration),
        (configs.map QCan.NetworkConfiguration.network_id).Nodup →
        (∀ c ∈ configs, c.bus_number ≤ 0) →
        ((QCan.createAll (QCan.Manager.mkInit startTime) configs).networks.map
            fun p => p.2.config.bus_number) =
          (List.range configs.length).map (fun i : Nat => (i : Int) + 1)) := by
  refine ⟨?_, QCan.next_available_spec, ?_, ?_⟩
  · intro m config hc
    unfold QCan.Manager.create_network
    dsimp only
    rw [if_pos hc]
    exact ⟨_, QCan.lookup?_upsert_self _ _ _, rfl⟩
  · intro m hreach
    exact (QCan.inv_of_reachable m hreach).2.2.2.1
  · intro startTime configs hnodup hbus
    have h := QCan.createAll_seq configs (QCan.Manager.mkInit startTime) 0 hnodup
      (by intro c hc hmem; cases hmem) hbus (by rfl)
    simpa using h

/-- Witness for C2 at concrete inputs: a fresh manager assigns bus 1 to a
config with busNumber 0; a reachable two-network manager has distinct bus
numbers; creating three zero-numbered configs yields [1, 2, 3]. -/
theorem C2_bus_number_assignment_witness :
    (∃ net, QCan.lookup? ((QCan.Manager.mkInit 0).create_network
        { network_id := "x", bus_number := 0 }).1.networks "x" = some net
      ∧ net.config.bus_number = (QCan.Manager.mkInit 0).next_available_bus_number)
    ∧ (QCan.mgrConnectedA.networks.Pairwise fun a b =>
        a.2.config.bus_number ≠ b.2.config.bus_number)
    ∧ ((QCan.createAll (QCan.Manager.mkInit 0)
          [{ network_id := "x", bus_number := 0 }, { network_id := "y", bus_number := 0 },
           { network_id := "z", bus_number := 0 }]).networks.map
        fun p => p.2.config.bus_number) =
      (List.range 3).map (fun i : Nat => (i : Int) + 1) := by
  refine ⟨?_, ?_, ?_⟩
  · exact C2_bus_number_assignment.1 (QCan.Manager.mkInit 0)
      { network_id := "x", bus_number := 0 } (Or.inl (by decide))
  · exact C2_bus_number_assignment.2.2.1 QCan.mgrConnectedA
      (QCan.Reachable.connect "a" "virtual:virtual0" 0 true
        (QCan.Reachable.create QCan.cfgB
          (QCan.Reachable.create QCan.cfgA
            (QCan.Reachable.discover [QCan.virtualHw0] (QCan.Reachable.init 0)))))
  · exact C2_bus_number_assignment.2.2.2 0
      [{ network_id := "x", bus_number := 0 }, { network_id := "y", bus_number := 0 },
       { network_id := "z", bus_number := 0 }] (by decide) (by decide)

/-- Counterexample to C2 as stated: create "a" (gets 1), create "b"
(gets 2), remove "a", create "c" — the third created config receives bus
number 1, not 3 ("smallest unused positive integer" reuses the freed 1),
so interleaved creations and removals do not yield {1, 2, ..., N} in
creation order. -/
theorem C2_interleaving_counterexample :
    ((QCan.lookup? (((((QCan.Manager.mkInit 0).create_network
          { network_id := "a", bus_number := 0 }).1.create_network
          { network_id := "b", bus_number := 0 }).1.remove_network "a").1.create_network
          { network_id := "c", bus_number := 0 }).1.networks "c").map
        fun n => n.config.bus_number) = some 1
    ∧ ((((((QCan.Manager.mkInit 0).create_network
          { network_id := "a", bus_number := 0 }).1.create_network
          { network_id := "b", bus_number := 0 }).1.remove_network "a").1.create_network
          { network_id := "c", bus_number := 0 }).1.networks.map
        fun p => p.2.config.bus_number) = [2, 1] := by
  exact ⟨rfl, rfl⟩
